import Mathlib

set_option autoImplicit false

/-!
Verification of the Sabouteur server game engine (`server/index.js`).

The JavaScript source is shallowly embedded: JS objects become structures,
JS `Map`s / plain objects used as dictionaries become insertion-ordered
association lists, JS numbers used as money/suspicion become `ℚ`
(the clamping logic under scrutiny never depends on floating-point
rounding), row/column arithmetic becomes `Int` (JS subtraction below zero
must not wrap), and every use of `Math.random()` / `Date.now()` / `uuid()`
is threaded in as an explicit parameter.
-/

namespace Saboteur

/-! ## Definitions: the embedded engine, spec-side predicates, concrete fixtures -/

/-- A 4-way connector set of a path tile (`{north, east, south, west}` bools). -/
structure Connectors where
  north : Bool
  east : Bool
  south : Bool
  west : Bool
deriving DecidableEq, Repr

/-- One quarter turn: `{north: west, east: north, south: east, west: south}`
(the loop body of `rotateConnectors`). -/
def rotateOnce (c : Connectors) : Connectors :=
  { north := c.west, east := c.north, south := c.east, west := c.south }

/-- `steps` computed in `rotateConnectors`: `((rotation % 4) + 4) % 4`.
JS `%` on integers truncates toward zero, which is `Int.tmod`. -/
def rotSteps (rotation : Int) : Nat :=
  (((rotation.tmod 4) + 4).tmod 4).toNat

/-- Apply `rotateOnce` `n` times (the `for` loop of `rotateConnectors`). -/
def rotateN : Nat → Connectors → Connectors
  | 0, c => c
  | n + 1, c => rotateN n (rotateOnce c)

/-- `rotateConnectors(connectors, rotation)` from `server/index.js`:
returns `undefined` (here `none`) when the input has no connectors. -/
def rotateConnectors (connectors : Option Connectors) (rotation : Int) : Option Connectors :=
  match connectors with
  | none => none
  | some c => some (rotateN (rotSteps rotation) c)

/-- `[l[i], l[j]] = [l[j], l[i]]` on a list; identity when an index is out of range. -/
def swapList {α : Type} (l : List α) (i j : Nat) : List α :=
  match l[i]?, l[j]? with
  | some a, some b => (l.set i b).set j a
  | _, _ => l

/-- The descending swap loop of a JS Fisher–Yates shuffle: at index `i > 0`,
swap positions `i` and `rand i % (i + 1)` (modelling
`Math.floor(Math.random() * (i + 1))`), then continue with `i - 1`. -/
def fyLoop {α : Type} (rand : Nat → Nat) : List α → Nat → List α
  | l, 0 => l
  | l, i + 1 => fyLoop rand (swapList l (i + 1) (rand (i + 1) % (i + 2))) i

/-- In-place Fisher–Yates shuffle starting at index `length - 1`. -/
def fisherYates {α : Type} (rand : Nat → Nat) (l : List α) : List α :=
  fyLoop rand l (l.length - 1)

/-- `roleDistribution(count)` from `server/index.js`: saboteur quota
`count >= 7 ? 3 : count >= 5 ? 2 : count >= 3 ? 1 : 0`, roles built
positionally then shuffled. -/
def roleDistribution (rand : Nat → Nat) (count : Nat) : List String :=
  let saboteurs := if count ≥ 7 then 3 else if count ≥ 5 then 2 else if count ≥ 3 then 1 else 0
  let roles := (List.range count).map (fun idx => if idx < saboteurs then "saboteur" else "miner")
  fisherYates rand roles

/-- `roleDistribution(playerCount)` from the client copy
(`client/src/game/models.ts`, also appended at the end of the server file):
its quota is `playerCount >= 7 ? 3 : playerCount >= 5 ? 2 : 1` — it never
produces the `0` bracket. -/
def clientRoleDistribution (rand : Nat → Nat) (playerCount : Nat) : List String :=
  let saboteurCount := if playerCount ≥ 7 then 3 else if playerCount ≥ 5 then 2 else 1
  let arr := (List.range playerCount).map (fun idx => if idx < saboteurCount then "saboteur" else "miner")
  fisherYates rand arr

/-- Lookup in an insertion-ordered association list (JS `map[k]` / `map.get(k)`). -/
def alGet {α : Type} (m : List (String × α)) (k : String) : Option α :=
  (m.find? (fun p => p.1 == k)).map (fun p => p.2)

/-- Lookup with a default (JS `map[k] ?? d`). -/
def alGetD {α : Type} (m : List (String × α)) (k : String) (d : α) : α :=
  (alGet m k).getD d

/-- Write (JS `map[k] = v` / `map.set(k, v)`): updates an existing key in
place, otherwise appends — preserving JS insertion order. -/
def alSet {α : Type} (m : List (String × α)) (k : String) (v : α) : List (String × α) :=
  if m.any (fun p => p.1 == k) then
    m.map (fun p => if p.1 == k then (k, v) else p)
  else
    m ++ [(k, v)]

/-- A static card definition from `CARD_LIBRARY`. -/
structure CardDef where
  key : String
  category : String
  connectors : Option Connectors
deriving DecidableEq, Repr

/-- `CARD_LIBRARY` from `server/index.js` (connector shapes and categories). -/
def cardLibrary : String → Option CardDef
  | "straight" => some ⟨"straight", "path", some ⟨false, true, false, true⟩⟩
  | "straightLong" => some ⟨"straightLong", "path", some ⟨true, false, true, false⟩⟩
  | "straightBranchNorth" => some ⟨"straightBranchNorth", "path", some ⟨true, true, false, true⟩⟩
  | "straightBranchSouth" => some ⟨"straightBranchSouth", "path", some ⟨false, true, true, true⟩⟩
  | "turn" => some ⟨"turn", "path", some ⟨true, true, false, false⟩⟩
  | "cross" => some ⟨"cross", "path", some ⟨true, true, true, true⟩⟩
  | "tee" => some ⟨"tee", "path", some ⟨true, true, true, false⟩⟩
  | "deadendEast" => some ⟨"deadendEast", "path", some ⟨false, true, false, false⟩⟩
  | "deadendNorth" => some ⟨"deadendNorth", "path", some ⟨true, false, false, false⟩⟩
  | "rockfall" => some ⟨"rockfall", "rockfall", none⟩
  | "break" => some ⟨"break", "break", none⟩
  | "repair" => some ⟨"repair", "repair", none⟩
  | _ => none

/-- A card instance (deck / hand / discard element). -/
structure CardInstance where
  instanceId : String
  cardKey : String
  rotation : Int
deriving DecidableEq, Repr

/-- The `neighbors` table of the source: a direction with its row/column
delta and the opposite direction. -/
inductive Dir
  | north
  | south
  | east
  | west
deriving DecidableEq, Repr

def Dir.dr : Dir → Int
  | .north => -1
  | .south => 1
  | .east => 0
  | .west => 0

def Dir.dc : Dir → Int
  | .north => 0
  | .south => 0
  | .east => 1
  | .west => -1

def Dir.opposite : Dir → Dir
  | .north => .south
  | .south => .north
  | .east => .west
  | .west => .east

/-- Read the connector flag of a direction (JS `connectors[key]`). -/
def Connectors.get (c : Connectors) : Dir → Bool
  | .north => c.north
  | .east => c.east
  | .south => c.south
  | .west => c.west

/-- Iteration order of the `neighbors` array in the source. -/
def neighborDirs : List Dir := [.north, .south, .east, .west]

/-- One board tile. Rows/columns are `Int` so that out-of-board neighbor
coordinates (like `-1`) behave as in JS. The 3D pose fields of the source
are irrelevant to the rules engine and omitted. -/
structure Tile where
  id : String
  row : Int
  col : Int
  tileType : String
  connectors : Option Connectors := none
  cardKey : Option String := none
  rotation : Option Int := none
  revealed : Bool := false
  ownerId : Option String := none
deriving DecidableEq, Repr

/-- The board. `winningTeam` is absent (`none`) until a team wins. -/
structure Board where
  rows : Nat
  columns : Nat
  tiles : List Tile
  winningTeam : Option String := none
deriving DecidableEq, Repr

/-- JS truthiness of an optional string (`undefined`/`null`/`""` are falsy). -/
def isTruthy : Option String → Bool
  | none => false
  | some s => s != ""

/-- `tileId(row, col)` = `` `${row}-${col}` ``. -/
def tileId (row col : Int) : String :=
  toString row ++ "-" ++ toString col

/-- `findTile(board, id)`. -/
def findTile (board : Board) (id : String) : Option Tile :=
  board.tiles.find? (fun t => t.id == id)

/-- The neighbor lookup `board.tiles.find(t => t.row === tile.row + dr && ...)`. -/
def findNeighbor (board : Board) (tile : Tile) (d : Dir) : Option Tile :=
  board.tiles.find? (fun t => t.row == tile.row + d.dr && t.col == tile.col + d.dc)

/-- Result of `exploreBoard`: the breadth-first-search visited id set (kept
in visit order) and the farthest column reached. -/
structure ExploreResult where
  farthestCol : Int
  visited : List String
deriving DecidableEq, Repr

/-- The BFS loop of `exploreBoard`, with explicit fuel. Each JS iteration
shifts one queue element; a tile is enqueued only from a visit step
(at most 4 pushes per visit, at most `tiles.length` visits, plus the start
tile), so `4 * tiles.length + 2` fuel strictly exceeds the number of
iterations the JS loop can perform and the fuel branch is unreachable. -/
def exploreLoop (board : Board) : Nat → List Tile → List String → Int → ExploreResult
  | 0, _, visited, far => ⟨far, visited⟩
  | _ + 1, [], visited, far => ⟨far, visited⟩
  | fuel + 1, t :: rest, visited, far =>
    match t.connectors with
    | none => exploreLoop board fuel rest visited far
    | some conns =>
      if visited.contains t.id then
        exploreLoop board fuel rest visited far
      else
        let visited' := visited ++ [t.id]
        let far' := max far t.col
        let pushes := neighborDirs.filterMap (fun d =>
          if conns.get d then
            match findNeighbor board t d with
            | none => none
            | some nb =>
              if visited'.contains nb.id then none
              else match nb.connectors with
                | none => none
                | some nc => if nc.get d.opposite then some nb else none
          else none)
        exploreLoop board fuel (rest ++ pushes) visited' far'

/-- `exploreBoard(board)`: BFS from the start tile along mutually open
connector edges. -/
def exploreBoard (board : Board) : ExploreResult :=
  match board.tiles.find? (fun t => t.tileType == "start") with
  | none => ⟨0, []⟩
  | some st => exploreLoop board (4 * board.tiles.length + 2) [st] [] st.col

/-- A connected player. Suspicion and score are JS numbers, embedded as `ℚ`
(the engine only adds/subtracts decimal literals and clamps, so exact
rational arithmetic is faithful for every property below). The 3D pose is
opaque to the rules engine and omitted. -/
structure Player where
  id : String
  name : String
  role : String
  hand : List CardInstance
  connected : Bool
  toolBroken : Bool
  suspicion : ℚ
  score : ℚ
deriving DecidableEq, Repr

/-- The derived telemetry snapshot `this.metrics`. -/
structure Metrics where
  deckRemaining : Nat
  progress : ℚ
  collapsedTiles : Nat
  suspicionByPlayer : List (String × ℚ)
  turnsTaken : Nat
  goldByPlayer : List (String × ℚ)
  round : Nat
  efficiencyByPlayer : List (String × ℚ)
  activePlayerId : Option String
  turnEndsAt : Option Int
deriving DecidableEq, Repr

/-- The `GameRoom` state (the timer handle `turnTimer` and socket/io wiring
carry no game state and are omitted; `metrics.turnEndsAt` is kept). -/
structure Room where
  board : Board
  players : List (String × Player)
  deck : List CardInstance
  discard : List CardInstance
  roundEnded : Bool
  roundNumber : Nat
  metrics : Metrics
  turnIndex : Nat
  lastWinnerId : Option String := none
  lastAwards : List (String × ℚ) := []
  lastWinners : List String := []
  lastWinningTeam : Option String := none
deriving DecidableEq, Repr

/-- `maybeDeclareSaboteurWin()`. -/
def maybeDeclareSaboteurWin (room : Room) : Room :=
  if !(isTruthy room.board.winningTeam) && room.metrics.deckRemaining == 0 then
    { room with board := { room.board with winningTeam := some "saboteur" } }
  else
    room

/-- Fold state of the reward deal: (players, goldByPlayer copy, awards). -/
abbrev RewardState := List (String × Player) × List (String × ℚ) × List (String × ℚ)

/-- Credit `value` gold to player `id` in the reward fold state (score,
gold tally and award map). -/
def creditPlayer (st : RewardState) (id : String) (value : ℚ) : RewardState :=
  let players1 :=
    match alGet st.1 id with
    | some p => alSet st.1 id { p with score := p.score + value }
    | none => st.1
  let gold1 := alSet st.2.1 id (alGetD st.2.1 id 0 + value)
  let awards1 := alSet st.2.2 id (alGetD st.2.2 id 0 + value)
  (players1, gold1, awards1)

/-- One step of the nugget deal (`nuggetCards.forEach((value, idx) => ...)`). -/
def dealStep (order : List Player) (st : RewardState) (iv : Nat × ℚ) : RewardState :=
  match order[iv.1 % order.length]? with
  | none => st
  | some miner => creditPlayer st miner.id iv.2

/-- `applyRoundRewards(placerId)`. `rand i` models the `i`-th
`Math.floor(Math.random() * 3)` draw. Returns the updated room together
with the `awards` map and `winners` list. The source indexes
`order[idx % order.length]`, which presupposes a nonempty `order`
(a miner win implies at least one reachable miner in practice); an empty
`order` would throw in JS and is modelled as skipping the deal. -/
def applyRoundRewards (rand : Nat → Nat) (room : Room) (placerId : Option String) :
    Room × List (String × ℚ) × List String :=
  let playersArr := room.players.map (fun kp => kp.2)
  let miners := playersArr.filter (fun p => p.role == "miner")
  let sabos := playersArr.filter (fun p => p.role == "saboteur")
  let init : RewardState := (room.players, room.metrics.goldByPlayer, [])
  if room.board.winningTeam == some "miner" then
    let nuggets := (List.range playersArr.length).map (fun i => (1 : ℚ) + (rand i % 3 : Nat))
    let order :=
      if isTruthy placerId then
        match miners.findIdx? (fun m => some m.id == placerId) with
        | some startIdx => miners.drop startIdx ++ miners.take startIdx
        | none => miners
      else miners
    let dealt :=
      if order.length == 0 then init
      else nuggets.enum.foldl (dealStep order) init
    let winners := order.map (fun p => p.id)
    ({ room with
        players := dealt.1
        metrics := { room.metrics with goldByPlayer := dealt.2.1 } },
     dealt.2.2, winners)
  else if room.board.winningTeam == some "saboteur" then
    let award : ℚ :=
      if sabos.length == 1 then 4
      else if sabos.length == 2 || sabos.length == 3 then 3
      else 2
    let dealt := sabos.foldl (fun st s => creditPlayer st s.id award) init
    let winners := sabos.map (fun p => p.id)
    ({ room with
        players := dealt.1
        metrics := { room.metrics with goldByPlayer := dealt.2.1 } },
     dealt.2.2, winners)
  else
    ({ room with metrics := { room.metrics with goldByPlayer := room.metrics.goldByPlayer } },
     [], [])

/-- `maybeFinishRound(placerId)`: gated by the round-ended flag; on the
first resolution records the winner data and applies the rewards. -/
def maybeFinishRound (rand : Nat → Nat) (room : Room) (placerId : Option String) : Room :=
  if room.roundEnded then room
  else if isTruthy room.board.winningTeam then
    let res := applyRoundRewards rand room placerId
    { res.1 with
      roundEnded := true
      lastWinnerId := placerId
      lastAwards := res.2.1
      lastWinners := res.2.2
      lastWinningTeam := res.1.board.winningTeam }
  else room

/-- The draw loop of `drawCards`: pop up to `count` cards off the top
(the JS array end) of the deck, stopping early when the deck is empty. -/
def drawLoop : Nat → List CardInstance → List CardInstance → List CardInstance × List CardInstance
  | 0, deck, acc => (deck, acc)
  | n + 1, deck, acc =>
    match deck.getLast? with
    | none => (deck, acc)
    | some card => drawLoop n deck.dropLast (acc ++ [card])

/-- `drawCards(player, count)`: draws into the hand of `playerId` (callers
always pass a player present in the map), refreshes `deckRemaining`, then
runs saboteur-win detection and the round-end check. -/
def drawCards (rand : Nat → Nat) (room : Room) (playerId : String) (count : Nat) : Room :=
  let res := drawLoop count room.deck []
  let players' :=
    match alGet room.players playerId with
    | some p => alSet room.players playerId { p with hand := p.hand ++ res.2 }
    | none => room.players
  let room' := { room with
    deck := res.1
    players := players'
    metrics := { room.metrics with deckRemaining := res.1.length } }
  maybeFinishRound rand (maybeDeclareSaboteurWin room') none

/-- `syncBoardTelemetry()`: recompute connectivity, progress, goal reveal /
miner win, saboteur-win check, deck telemetry. -/
def syncBoardTelemetry (room : Room) : Room :=
  let res := exploreBoard room.board
  let progress := (res.farthestCol : ℚ) / ((room.board.columns : ℚ) - 1)
  let tiles' := room.board.tiles.map (fun t =>
    if t.tileType == "goal" && res.visited.contains t.id then { t with revealed := true } else t)
  let winning' :=
    if room.board.tiles.any (fun t =>
        t.tileType == "goal" && res.visited.contains t.id && t.cardKey == some "gold") then
      some "miner"
    else room.board.winningTeam
  let room1 := { room with
    board := { room.board with tiles := tiles', winningTeam := winning' }
    metrics := { room.metrics with progress := progress } }
  let room2 := maybeDeclareSaboteurWin room1
  { room2 with metrics := { room2.metrics with deckRemaining := room2.deck.length } }

/-- `advanceTurn()` (with `setTurnTimer` inlined: it refreshes
`turnEndsAt` from the current time; the JS timeout handle itself holds no
game state). -/
def advanceTurn (now : Int) (room : Room) : Room :=
  let ids := room.players.map (fun kp => kp.1)
  if ids.isEmpty then
    { room with metrics := { room.metrics with activePlayerId := none, turnEndsAt := none } }
  else
    let idx0 : Nat :=
      match room.metrics.activePlayerId with
      | some a =>
        match ids.findIdx? (fun i => i == a) with
        | some i => i
        | none => 0
      | none => 0
    let turnIndex' := (idx0 + 1) % ids.length
    let active' := ids.getD turnIndex' ""
    let m1 := { room.metrics with activePlayerId := some active' }
    let m2 := if isTruthy (some active') then { m1 with turnEndsAt := some (now + 60000) } else m1
    { room with turnIndex := turnIndex', metrics := m2 }

/-- Result of `placeCard`. -/
inductive PlaceResult
  | error (msg : String)
  | ok (card : CardInstance) (roundEnded : Bool) (placerId : Option String)
deriving DecidableEq, Repr

/-- Result of `triggerRockfall` / `applyToolEffect`. -/
inductive SimpleResult
  | error (msg : String)
  | ok
deriving DecidableEq, Repr

/-- The payload of a `placeCard` intent. -/
structure PlacePayload where
  cardInstanceId : String
  targetTileId : String
  rotation : Int
deriving DecidableEq, Repr

def PlaceResult.isOk : PlaceResult → Bool
  | .error _ => false
  | .ok _ _ _ => true

def SimpleResult.isOk : SimpleResult → Bool
  | .error _ => false
  | .ok => true

/-- `placeCard(playerId, payload)`. Returns the room after the call together
with the JS return value. `rand` feeds the reward draws of a round end
triggered by this action; `now` is `Date.now()` for the turn timer.
The `CARD_LIBRARY[card.cardKey]` lookup is total here (`cardLibrary`); every
card instance in play carries a library key, and a `path` entry always has
connectors, so the `.getD` fallback connector set is never used. -/
def placeCard (rand : Nat → Nat) (now : Int) (room : Room) (playerId : String)
    (payload : PlacePayload) : Room × PlaceResult :=
  if isTruthy room.metrics.activePlayerId && room.metrics.activePlayerId != some playerId then
    (room, .error "Not your turn")
  else
    let endedBefore := room.roundEnded
    match alGet room.players playerId with
    | none => (room, .error "Unknown player")
    | some player =>
      if player.toolBroken then (room, .error "Tool broken")
      else
        match player.hand.find? (fun c => c.instanceId == payload.cardInstanceId) with
        | none => (room, .error "Card not available")
        | some card =>
          if ((cardLibrary card.cardKey).map (fun d => d.category)) != some "path" then
            (room, .error "Not a path card")
          else
            match findTile room.board payload.targetTileId with
            | none => (room, .error "Invalid tile")
            | some tile =>
              if tile.tileType == "start" || tile.tileType == "goal" then
                (room, .error "Invalid tile")
              else if tile.tileType == "path" then (room, .error "Tile already filled")
              else
                let connectors :=
                  (rotateConnectors ((cardLibrary card.cardKey).bind (fun d => d.connectors))
                    payload.rotation).getD ⟨false, false, false, false⟩
                let prevProgress := room.metrics.progress
                let hasValidAttachment := neighborDirs.any (fun d =>
                  match findNeighbor room.board tile d with
                  | none => false
                  | some nb =>
                    match nb.connectors with
                    | none => false
                    | some nc => connectors.get d && nc.get d.opposite)
                let mismatch := neighborDirs.any (fun d =>
                  match findNeighbor room.board tile d with
                  | none => false
                  | some nb =>
                    match nb.connectors with
                    | none => false
                    | some nc =>
                      !(connectors.get d && nc.get d.opposite) &&
                        (connectors.get d || nc.get d.opposite))
                if !hasValidAttachment || mismatch then
                  (room, .error "Card does not connect cleanly")
                else
                  let newTile := { tile with
                    tileType := "path"
                    connectors := some connectors
                    cardKey := some card.cardKey
                    rotation := some payload.rotation
                    revealed := true
                    ownerId := some playerId }
                  let tiles' := room.board.tiles.map (fun t => if t.id == tile.id then newTile else t)
                  let player' := { player with
                    hand := player.hand.filter (fun c => c.instanceId != card.instanceId) }
                  let m := room.metrics
                  let m' := { m with
                    turnsTaken := m.turnsTaken + 1
                    suspicionByPlayer := alSet m.suspicionByPlayer playerId
                      (max 0 (alGetD m.suspicionByPlayer playerId 0 - 0.05)) }
                  let deltaProgress := m'.progress - prevProgress
                  let m2 := { m' with
                    efficiencyByPlayer := alSet m'.efficiencyByPlayer playerId
                      (alGetD m'.efficiencyByPlayer playerId 0 + deltaProgress) }
                  let room1 := { room with
                    board := { room.board with tiles := tiles' }
                    players := alSet room.players playerId player'
                    discard := room.discard ++ [card]
                    metrics := m2 }
                  let room2 := drawCards rand room1 playerId 1
                  let room3 := syncBoardTelemetry room2
                  let room4 := advanceTurn now room3
                  let room5 := maybeFinishRound rand room4 (some playerId)
                  let justEnded := !endedBefore && room5.roundEnded
                  (room5, .ok card justEnded (if justEnded then some playerId else none))

/-- `triggerRockfall(playerId, tileId)`. -/
def triggerRockfall (rand : Nat → Nat) (now : Int) (room : Room) (playerId : String)
    (targetTileId : String) : Room × SimpleResult :=
  if isTruthy room.metrics.activePlayerId && room.metrics.activePlayerId != some playerId then
    (room, .error "Not your turn")
  else
    match alGet room.players playerId with
    | none => (room, .error "Unknown player")
    | some player =>
      match player.hand.find? (fun c => c.cardKey == "rockfall") with
      | none => (room, .error "No rockfall card")
      | some card =>
        match findTile room.board targetTileId with
        | none => (room, .error "Tile is not a tunnel")
        | some tile =>
          if tile.tileType != "path" then (room, .error "Tile is not a tunnel")
          else
            let newTile := { tile with
              tileType := "blocked"
              connectors := none
              cardKey := none
              rotation := none }
            let tiles' := room.board.tiles.map (fun t => if t.id == tile.id then newTile else t)
            let player' := { player with
              hand := player.hand.filter (fun c => c.instanceId != card.instanceId) }
            let m := room.metrics
            let m' := { m with
              collapsedTiles := m.collapsedTiles + 1
              turnsTaken := m.turnsTaken + 1
              suspicionByPlayer := alSet m.suspicionByPlayer playerId
                (min 1 (alGetD m.suspicionByPlayer playerId 0 + 0.15)) }
            let room1 := { room with
              board := { room.board with tiles := tiles' }
              players := alSet room.players playerId player'
              metrics := m' }
            let room2 := drawCards rand room1 playerId 1
            let room3 := syncBoardTelemetry room2
            let room4 := advanceTurn now room3
            (room4, .ok)

/-- The payload of a tool (break/repair) intent. -/
structure ToolPayload where
  targetPlayerId : String
  cardKey : String
deriving DecidableEq, Repr

/-- `applyToolEffect(actorId, {targetPlayerId, cardKey})`. The actor may
target themself in JS (one shared object); the model re-reads the actor
entry after the target write so the aliasing is preserved. -/
def applyToolEffect (rand : Nat → Nat) (now : Int) (room : Room) (actorId : String)
    (payload : ToolPayload) : Room × SimpleResult :=
  if isTruthy room.metrics.activePlayerId && room.metrics.activePlayerId != some actorId then
    (room, .error "Not your turn")
  else
    match alGet room.players actorId, alGet room.players payload.targetPlayerId with
    | some actor, some target =>
      (match actor.hand.find? (fun c => c.cardKey == payload.cardKey) with
      | none => (room, .error "Card missing")
      | some card =>
        let broken := payload.cardKey == "break"
        let players1 := alSet room.players payload.targetPlayerId { target with toolBroken := broken }
        let m' :=
          if broken then
            { room.metrics with
              suspicionByPlayer := alSet room.metrics.suspicionByPlayer actorId
                (min 1 (alGetD room.metrics.suspicionByPlayer actorId 0 + 0.12)) }
          else
            { room.metrics with
              suspicionByPlayer := alSet room.metrics.suspicionByPlayer actorId
                (max 0 (alGetD room.metrics.suspicionByPlayer actorId 0 - 0.04)) }
        let players2 :=
          match alGet players1 actorId with
          | some actor1 =>
            alSet players1 actorId { actor1 with
              hand := actor1.hand.filter (fun c => c.instanceId != card.instanceId) }
          | none => players1
        let room1 := { room with players := players2, metrics := m' }
        let room2 := drawCards rand room1 actorId 1
        let room3 := { room2 with
          metrics := { room2.metrics with turnsTaken := room2.metrics.turnsTaken + 1 } }
        let room4 := advanceTurn now room3
        (room4, .ok))
    | _, _ => (room, .error "Players missing")

/-- The first half of `insertPlayer(socket, name)`: build the player (role
from `roleDistribution` at the *new* player count, initial suspicion 0.5
for a saboteur and 0 for a miner) and store it in the player map and the
suspicion metrics. -/
def insertBase (randRole : Nat → Nat) (room : Room) (socketId : String) (name : String) :
    Room × Player :=
  let playerCount := room.players.length + 1
  let roles := roleDistribution randRole playerCount
  let role := roles.getD (playerCount - 1) "miner"
  let player : Player := {
    id := socketId
    name := if name == "" then "Dwarf-" ++ toString playerCount else name
    role := role
    hand := []
    connected := true
    toolBroken := false
    suspicion := if role == "saboteur" then 0.5 else 0
    score := 0 }
  ({ room with
    players := alSet room.players socketId player
    metrics := { room.metrics with
      suspicionByPlayer := alSet room.metrics.suspicionByPlayer socketId player.suspicion } },
   player)

/-- The rest of `insertPlayer`: draw the initial hand of 5 cards and take
the turn when none is active. Returns the room and the inserted player (as
JS returns the live object, read back from the final state). -/
def insertPlayer (randRole : Nat → Nat) (randReward : Nat → Nat) (now : Int)
    (room : Room) (socketId : String) (name : String) : Room × Player :=
  let base := insertBase randRole room socketId name
  let player := base.2
  let room2 := drawCards randReward base.1 socketId 5
  let room3 :=
    if !(isTruthy room2.metrics.activePlayerId) then
      { room2 with
        turnIndex := 0
        metrics := { room2.metrics with
          activePlayerId := some socketId
          turnEndsAt := if isTruthy (some socketId) then some (now + 60000)
                        else room2.metrics.turnEndsAt } }
    else room2
  (room3, (alGet room3.players socketId).getD player)

/-- One element of the `serializePlayers` output. -/
structure SerializedPlayer where
  id : String
  name : String
  role : String
  connected : Bool
  toolBroken : Bool
  suspicion : ℚ
  score : ℚ
deriving DecidableEq, Repr

/-- `serializePlayers(requestingId)`: own role is revealed, every other
role reads `"unknown"`, but the exact suspicion value is always included. -/
def serializePlayers (room : Room) (requestingId : Option String) : List SerializedPlayer :=
  room.players.map (fun kp =>
    { id := kp.2.id
      name := kp.2.name
      role := if some kp.2.id == requestingId then kp.2.role else "unknown"
      connected := kp.2.connected
      toolBroken := kp.2.toolBroken
      suspicion := alGetD room.metrics.suspicionByPlayer kp.2.id 0
      score := kp.2.score })

def BOARD_ROWS : Nat := 7

def BOARD_COLUMNS : Nat := 9

/-- Replace the first tile satisfying the predicate (JS `tiles.find` followed
by `Object.assign` on the found tile). -/
def updateFirst (p : Tile → Bool) (f : Tile → Tile) : List Tile → List Tile
  | [] => []
  | t :: rest => if p t then f t :: rest else t :: updateFirst p f rest

/-- `createBoard()`: 7×9 empty grid, start tile at (3,0) opening
north/east/south, goal tiles at rows 1/3/5 of the last column with the
gold goal picked by `goldPick % 3` (modelling
`Math.floor(Math.random() * 3)`). -/
def createBoard (goldPick : Nat) : Board :=
  let goalRows : List Int := [1, 3, 5]
  let goldIndex := goldPick % goalRows.length
  let tiles := (List.range BOARD_ROWS).flatMap (fun row =>
    (List.range BOARD_COLUMNS).map (fun col =>
      ({ id := tileId row col, row := row, col := col, tileType := "empty",
         revealed := false } : Tile)))
  let tiles1 := updateFirst
    (fun t => t.row == ((BOARD_ROWS : Int) / 2) && t.col == 0)
    (fun t => { t with
      tileType := "start"
      connectors := some ⟨true, true, true, false⟩
      revealed := true })
    tiles
  let tiles2 := goalRows.enum.foldl (fun acc ir =>
    updateFirst
      (fun t => t.row == ir.2 && t.col == (BOARD_COLUMNS : Int) - 1)
      (fun t => { t with
        tileType := "goal"
        connectors := some ⟨true, false, true, true⟩
        revealed := false
        cardKey := if ir.1 == goldIndex then some "gold" else some "coal" })
      acc) tiles1
  { rows := BOARD_ROWS, columns := BOARD_COLUMNS, tiles := tiles2 }

/-- `DECK_TEMPLATE` (59 cards in total). -/
def DECK_TEMPLATE : List (String × Nat) :=
  [("straight", 6), ("straightLong", 6), ("straightBranchNorth", 3),
   ("straightBranchSouth", 3), ("turn", 8), ("tee", 6), ("cross", 4),
   ("deadendEast", 4), ("deadendNorth", 4), ("rockfall", 5), ("break", 4),
   ("repair", 6)]

/-- `generateDeck()`: expand the template (with `freshId i` modelling the
`i`-th `uuid()` call) and Fisher–Yates shuffle. -/
def generateDeck (freshId : Nat → String) (rand : Nat → Nat) : List CardInstance :=
  let base := DECK_TEMPLATE.flatMap (fun kq => List.replicate kq.2 kq.1)
  let deck := base.enum.map (fun ik =>
    ({ instanceId := freshId ik.1, cardKey := ik.2, rotation := 0 } : CardInstance))
  fisherYates rand deck

/-- One iteration of the player-reset loop of `resetRoom` (`ip` is the
enumerated `(index, (id, player))` entry): reassign the indexed role, reset
transient state, record the fresh suspicion and redraw 5 cards. -/
def resetPlayerStep (roles : List String) (randReward : Nat → Nat) (acc : Room)
    (ip : Nat × (String × Player)) : Room :=
  match alGet acc.players ip.2.1 with
  | none => acc
  | some player =>
    let role := roles.getD ip.1 "miner"
    let p' := { player with
      role := role
      hand := ([] : List CardInstance)
      connected := true
      toolBroken := false
      suspicion := if role == "saboteur" then (0.5 : ℚ) else 0
      score := player.score }
    let acc1 := { acc with
      players := alSet acc.players ip.2.1 p'
      metrics := { acc.metrics with
        suspicionByPlayer := alSet acc.metrics.suspicionByPlayer ip.2.1 p'.suspicion } }
    drawCards randReward acc1 ip.2.1 5

/-- `resetRoom()`: new board/deck, discard and round flag cleared, round
number bumped, cumulative gold kept, roles reassigned over the current
player count, per-player transient state reset with a fresh 5-card hand,
turn handed to the first player, telemetry resynced. Each source of JS
randomness is threaded as its own stream. -/
def resetRoom (goldPick : Nat) (freshId : Nat → String) (randDeck : Nat → Nat)
    (randRole : Nat → Nat) (randReward : Nat → Nat) (now : Int) (room : Room) : Room :=
  let board := createBoard goldPick
  let deck := generateDeck freshId randDeck
  let room1 := { room with
    board := board
    deck := deck
    discard := []
    roundEnded := false
    roundNumber := room.roundNumber + 1
    lastAwards := []
    lastWinnerId := none
    lastWinningTeam := none
    turnIndex := 0
    metrics := {
      deckRemaining := deck.length
      progress := 0
      collapsedTiles := 0
      suspicionByPlayer := []
      turnsTaken := 0
      goldByPlayer := room.metrics.goldByPlayer
      round := room.roundNumber + 1
      efficiencyByPlayer := []
      activePlayerId := none
      turnEndsAt := none } }
  let roles := roleDistribution randRole room1.players.length
  let room2 := room1.players.enum.foldl (resetPlayerStep roles randReward) room1
  let ids := room2.players.map (fun kp => kp.1)
  let room3 :=
    if ids.length != 0 then
      { room2 with
        metrics := { room2.metrics with
          activePlayerId := some (ids.getD 0 "")
          turnEndsAt := if isTruthy (some (ids.getD 0 "")) then some (now + 60000)
                        else room2.metrics.turnEndsAt } }
    else room2
  syncBoardTelemetry room3

/-- The identity-relevant fields of a player (everything the reward fold
and card draws never touch). -/
def playerView (p : Player) : String × String × ℚ := (p.id, p.role, p.suspicion)

/-- The rotated connector set the placement would put on the board. -/
def placedConnectors (card : CardInstance) (pp : PlacePayload) : Connectors :=
  (rotateConnectors ((cardLibrary card.cardKey).bind (fun d => d.connectors)) pp.rotation).getD
    ⟨false, false, false, false⟩

/-- Valid attachment in direction `d`, as the code checks it: a neighbor
tile exists there, it has connectors, and both facing flags are open. -/
def validAttachAt (board : Board) (tile : Tile) (c : Connectors) (d : Dir) : Prop :=
  ∃ nb nc, findNeighbor board tile d = some nb ∧ nb.connectors = some nc ∧
    c.get d = true ∧ nc.get d.opposite = true

/-- Mismatch in direction `d`, as the code records it: a neighbor tile with
connectors exists there and exactly one side of the shared edge is open.
Directions with no neighbor tile (board edge) or a connector-less neighbor
are skipped entirely. -/
def mismatchAt (board : Board) (tile : Tile) (c : Connectors) (d : Dir) : Prop :=
  ∃ nb nc, findNeighbor board tile d = some nb ∧ nb.connectors = some nc ∧
    ¬ c.get d = nc.get d.opposite

/-- Every suspicion value of the metrics map lies in `[0, 1]`. -/
def SuspInv (m : List (String × ℚ)) : Prop := ∀ p ∈ m, 0 ≤ p.2 ∧ p.2 ≤ 1

/-- Round-start consistency: every recorded suspicion value belongs to a
present player and equals 0.5 exactly for saboteurs, 0 for miners. -/
def SuspRoleInv (rm : Room) : Prop :=
  ∀ k v, alGet rm.metrics.suspicionByPlayer k = some v →
    ∃ p, alGet rm.players k = some p ∧ p.suspicion = v ∧
      v = (if p.role == "saboteur" then (0.5 : ℚ) else 0)

/-- A start tile opening only east, at the origin. -/
def wStart : Tile :=
  { id := "0-0", row := 0, col := 0, tileType := "start",
    connectors := some ⟨false, true, false, false⟩, revealed := true }

/-- An empty tile east of `wStart`. -/
def wEmpty : Tile :=
  { id := "0-1", row := 0, col := 1, tileType := "empty" }

def wMetrics : Metrics :=
  { deckRemaining := 0, progress := 0, collapsedTiles := 0, suspicionByPlayer := [],
    turnsTaken := 0, goldByPlayer := [], round := 1, efficiencyByPlayer := [],
    activePlayerId := none, turnEndsAt := none }

/-- A room with no players (every action on it errors out). -/
def wEmptyRoom : Room :=
  { board := { rows := 1, columns := 2, tiles := [wStart, wEmpty] },
    players := [], deck := [], discard := [], roundEnded := false,
    roundNumber := 1, metrics := wMetrics, turnIndex := 0 }

/-- A gold goal tile east of `wStart`. -/
def wGoldGoal : Tile :=
  { id := "0-1", row := 0, col := 1, tileType := "goal",
    connectors := some ⟨true, false, true, true⟩, revealed := false,
    cardKey := some "gold" }

/-- A board on which the gold goal is reachable from the start. -/
def wGoalRoom : Room :=
  { board := { rows := 1, columns := 2, tiles := [wStart, wGoldGoal] },
    players := [], deck := [], discard := [], roundEnded := false,
    roundNumber := 1, metrics := wMetrics, turnIndex := 0 }

/-- A player with an empty hand. -/
def wPlayerEmptyHand : Player :=
  { id := "p1", name := "P", role := "miner", hand := [], connected := true,
    toolBroken := false, suspicion := 0, score := 0 }

/-- A room with one player and a single card left in the deck. -/
def wOneCardRoom : Room :=
  { board := { rows := 1, columns := 2, tiles := [wStart, wEmpty] },
    players := [("p1", wPlayerEmptyHand)],
    deck := [{ instanceId := "d1", cardKey := "turn", rotation := 0 }],
    discard := [], roundEnded := false, roundNumber := 1,
    metrics := { wMetrics with deckRemaining := 1, suspicionByPlayer := [("p1", 0)] },
    turnIndex := 0 }

/-- A `straight` (east–west) path card instance. -/
def wPathCard : CardInstance := { instanceId := "c1", cardKey := "straight", rotation := 0 }

/-- A player holding `wPathCard`, whose turn it is in `wPlaceRoom`. -/
def wPlacer : Player :=
  { id := "p1", name := "P", role := "miner", hand := [wPathCard], connected := true,
    toolBroken := false, suspicion := 0, score := 0 }

/-- A room where placing `wPathCard` on tile `0-1` succeeds: its west
connector meets the start tile's open east edge, and its east connector
points off the board. -/
def wPlaceRoom : Room :=
  { board := { rows := 1, columns := 2, tiles := [wStart, wEmpty] },
    players := [("p1", wPlacer)],
    deck := [{ instanceId := "d1", cardKey := "turn", rotation := 0 },
             { instanceId := "d2", cardKey := "turn", rotation := 0 }],
    discard := [], roundEnded := false, roundNumber := 1,
    metrics := { wMetrics with
      deckRemaining := 2
      suspicionByPlayer := [("p1", 0)]
      activePlayerId := some "p1" },
    turnIndex := 0 }

def wPlacePayload : PlacePayload := { cardInstanceId := "c1", targetTileId := "0-1", rotation := 0 }

/-- The mismatch rule as claim C1 words it: an open connector of the placed
card facing the board edge (no neighbor tile) or a neighbor without
connectors also records a mismatch. Written from the claim text, only to
refute it against the code. -/
def claimMismatchAt (board : Board) (tile : Tile) (c : Connectors) (d : Dir) : Bool :=
  match findNeighbor board tile d with
  | none => c.get d
  | some nb =>
    match nb.connectors with
    | none => c.get d
    | some nc => !(c.get d && nc.get d.opposite) && (c.get d || nc.get d.opposite)

/-! ## Theorems -/

theorem rotSteps_eq (r : Int) : rotSteps r = (r % 4).toNat := by
  unfold rotSteps
  have h1 : r.tmod 4 < 4 := Int.tmod_lt_of_pos r (by decide)
  have h2 : -4 < r.tmod 4 := by
    cases r with
    | ofNat m =>
      have : (0 : Int) ≤ (Int.ofNat m).tmod 4 := Int.tmod_nonneg 4 (Int.ofNat_nonneg m)
      omega
    | negSucc m =>
      have hm : (m + 1) % 4 < 4 := Nat.mod_lt _ (by decide)
      have he : (Int.negSucc m).tmod 4 = -(((m + 1) % 4 : Nat) : Int) := rfl
      omega
  rw [Int.tmod_eq_emod (by omega) (by decide)]
  have h4 := Int.tmod_add_tdiv r 4
  generalize r.tdiv 4 = q at h4
  omega

theorem rotateN_add (a b : Nat) (c : Connectors) :
    rotateN b (rotateN a c) = rotateN (a + b) c := by
  induction a generalizing c with
  | zero => simp [rotateN]
  | succ n ih =>
    have : n + 1 + b = (n + b) + 1 := by omega
    rw [this]
    simp only [rotateN]
    exact ih (rotateOnce c)

theorem rotateN_four (c : Connectors) : rotateN 4 c = c := by
  cases c
  rfl

theorem rotateN_mod (n : Nat) (c : Connectors) : rotateN n c = rotateN (n % 4) c := by
  induction n using Nat.strong_induction_on with
  | _ n ih =>
    by_cases h : n < 4
    · rw [Nat.mod_eq_of_lt h]
    · have h4 : n = (n - 4) + 4 := by omega
      rw [h4, ← rotateN_add, rotateN_four, ih (n - 4) (by omega)]
      congr 1
      omega

/-- C7: for every connector set `c` and every rotation `r`,
`rotateConnectors (rotateConnectors c r) (4 - r) = c` (round trip),
rotating by 4 is the identity, and the result is `undefined` exactly
when the input connectors are `undefined`. -/
theorem C7_rotateConnectors_roundtrip (c : Option Connectors) (r : Int) :
    rotateConnectors (rotateConnectors c r) (4 - r) = c ∧
    rotateConnectors c 4 = c ∧
    (rotateConnectors c r = none ↔ c = none) := by
  refine ⟨?_, ?_, ?_⟩
  · cases c with
    | none => rfl
    | some c0 =>
      simp only [rotateConnectors, rotateN_add, Option.some.injEq]
      rw [rotateN_mod]
      have hsr := rotSteps_eq r
      have hs4 := rotSteps_eq (4 - r)
      have hb1 : 0 ≤ r % 4 := Int.emod_nonneg r (by decide)
      have hb2 : r % 4 < 4 := Int.emod_lt_of_pos r (by decide)
      have hb3 : 0 ≤ (4 - r) % 4 := Int.emod_nonneg _ (by decide)
      have hb4 : (4 - r) % 4 < 4 := Int.emod_lt_of_pos _ (by decide)
      have hsum : (r % 4 + (4 - r) % 4) % 4 = 0 := by omega
      have hmod : (rotSteps r + rotSteps (4 - r)) % 4 = 0 := by
        rw [hsr, hs4]; omega
      rw [hmod, rotateN]
  · cases c with
    | none => rfl
    | some c0 =>
      simp only [rotateConnectors, Option.some.injEq]
      have : rotSteps 4 = 0 := by rw [rotSteps_eq]; rfl
      rw [this, rotateN]
  · cases c <;> simp [rotateConnectors]

theorem swapList_eq_of {α : Type} (l : List α) (i j : Nat) (a b : α)
    (hi : l[i]? = some a) (hj : l[j]? = some b) :
    swapList l i j = (l.set i b).set j a := by
  unfold swapList
  rw [hi, hj]

theorem swapList_eq_left {α : Type} (l : List α) (i j : Nat)
    (hi : l[i]? = none) : swapList l i j = l := by
  unfold swapList
  rw [hi]

theorem swapList_eq_right {α : Type} (l : List α) (i j : Nat)
    (hj : l[j]? = none) : swapList l i j = l := by
  unfold swapList
  rw [hj]
  cases l[i]? <;> rfl

theorem cons_set_perm {α : Type} (l : List α) (k : Nat) (a b : α)
    (h : l[k]? = some b) : (b :: l.set k a).Perm (a :: l) := by
  induction l generalizing k with
  | nil => simp at h
  | cons x xs ih =>
    cases k with
    | zero =>
      simp only [List.getElem?_cons_zero, Option.some.injEq] at h
      rw [← h]
      simpa [List.set] using List.Perm.swap a x xs
    | succ m =>
      simp only [List.getElem?_cons_succ] at h
      have step1 : (b :: x :: xs.set m a).Perm (x :: b :: xs.set m a) :=
        List.Perm.swap x b _
      have step2 : (x :: b :: xs.set m a).Perm (x :: a :: xs) :=
        List.Perm.cons x (ih m h)
      have step3 : (x :: a :: xs).Perm (a :: x :: xs) := List.Perm.swap a x xs
      simpa [List.set] using (step1.trans step2).trans step3

theorem swapList_perm {α : Type} (l : List α) (i j : Nat) :
    (swapList l i j).Perm l := by
  cases hi : l[i]? with
  | none => rw [swapList_eq_left l i j hi]
  | some a =>
    cases hj : l[j]? with
    | none => rw [swapList_eq_right l i j hj]
    | some b =>
      rw [swapList_eq_of l i j a b hi hj]
      by_cases hij : i = j
      · subst hij
        rw [hi] at hj
        cases hj
        rw [List.set_set]
        have h1 : (a :: l.set i a).Perm (a :: l) := cons_set_perm l i a a hi
        exact h1.cons_inv
      · have hj' : (l.set i b)[j]? = some b := by
          rw [List.getElem?_set_ne hij, hj]
        have h1 : (b :: (l.set i b).set j a).Perm (a :: l.set i b) :=
          cons_set_perm (l.set i b) j a b hj'
        have h2 : (a :: l.set i b).Perm (b :: l) := cons_set_perm l i b a hi
        have h3 : (b :: (l.set i b).set j a).Perm (b :: l) := h1.trans h2
        exact h3.cons_inv

theorem fyLoop_perm {α : Type} (rand : Nat → Nat) (l : List α) (n : Nat) :
    (fyLoop rand l n).Perm l := by
  induction n generalizing l with
  | zero => exact List.Perm.refl l
  | succ i ih =>
    exact (ih _).trans (swapList_perm l (i + 1) (rand (i + 1) % (i + 2)))

theorem fisherYates_perm {α : Type} (rand : Nat → Nat) (l : List α) :
    (fisherYates rand l).Perm l :=
  fyLoop_perm rand l (l.length - 1)

theorem baseRoles_count_sab (n s : Nat) :
    (((List.range n).map (fun idx => if idx < s then "saboteur" else "miner")).count "saboteur")
      = min s n := by
  have hT : (("saboteur" : String) == "saboteur") = true := by decide
  have hF : (("miner" : String) == "saboteur") = false := by decide
  induction n with
  | zero => simp
  | succ m ih =>
    rw [List.range_succ, List.map_append, List.count_append, ih]
    by_cases h : m < s
    · simp only [List.map_cons, List.map_nil, if_pos h, List.count_cons, List.count_nil, hT]
      simp only [if_true]
      omega
    · simp only [List.map_cons, List.map_nil, if_neg h, List.count_cons, List.count_nil, hF]
      simp only [Bool.false_eq_true, if_false]
      omega

theorem baseRoles_count_miner (n s : Nat) :
    (((List.range n).map (fun idx => if idx < s then "saboteur" else "miner")).count "miner")
      = n - min s n := by
  have hT : (("miner" : String) == "miner") = true := by decide
  have hF : (("saboteur" : String) == "miner") = false := by decide
  induction n with
  | zero => simp
  | succ m ih =>
    rw [List.range_succ, List.map_append, List.count_append, ih]
    by_cases h : m < s
    · simp only [List.map_cons, List.map_nil, if_pos h, List.count_cons, List.count_nil, hF]
      simp only [Bool.false_eq_true, if_false]
      omega
    · simp only [List.map_cons, List.map_nil, if_neg h, List.count_cons, List.count_nil, hT]
      simp only [if_true]
      omega

/-- C3 (amended): the server `roleDistribution(n)` returns exactly `n` roles with
exactly 0 saboteurs when `n < 3`, 1 when `n` is 3 or 4, 2 when `n` is 5 or 6 and
3 when `n ≥ 7`, every remaining role being `miner`; the client copy of
`roleDistribution` agrees for `n ≥ 3` (and `n = 0`) but returns exactly 1
saboteur — not 0 — when `n` is 1 or 2. -/
theorem C3_roleDistribution_counts (rand : Nat → Nat) (n : Nat) :
    (roleDistribution rand n).length = n ∧
    (roleDistribution rand n).count "saboteur"
      = (if n ≥ 7 then 3 else if n ≥ 5 then 2 else if n ≥ 3 then 1 else 0) ∧
    (roleDistribution rand n).count "miner"
      = n - (if n ≥ 7 then 3 else if n ≥ 5 then 2 else if n ≥ 3 then 1 else 0) ∧
    (clientRoleDistribution rand n).length = n ∧
    (clientRoleDistribution rand n).count "saboteur"
      = (if n ≥ 7 then 3 else if n ≥ 5 then 2 else min 1 n) ∧
    (clientRoleDistribution rand n).count "miner"
      = n - (if n ≥ 7 then 3 else if n ≥ 5 then 2 else min 1 n) := by
  have hs : ∀ (s : Nat),
      (fisherYates rand ((List.range n).map
        (fun idx => if idx < s then "saboteur" else "miner"))).length = n ∧
      (fisherYates rand ((List.range n).map
        (fun idx => if idx < s then "saboteur" else "miner"))).count "saboteur" = min s n ∧
      (fisherYates rand ((List.range n).map
        (fun idx => if idx < s then "saboteur" else "miner"))).count "miner" = n - min s n := by
    intro s
    have hperm := fisherYates_perm rand
      ((List.range n).map (fun idx => if idx < s then "saboteur" else "miner"))
    refine ⟨?_, ?_, ?_⟩
    · rw [hperm.length_eq, List.length_map, List.length_range]
    · rw [hperm.count_eq, baseRoles_count_sab]
    · rw [hperm.count_eq, baseRoles_count_miner]
  unfold roleDistribution clientRoleDistribution
  obtain ⟨hl1, hc1, hm1⟩ :=
    hs (if n ≥ 7 then 3 else if n ≥ 5 then 2 else if n ≥ 3 then 1 else 0)
  obtain ⟨hl2, hc2, hm2⟩ := hs (if n ≥ 7 then 3 else if n ≥ 5 then 2 else 1)
  refine ⟨hl1, ?_, ?_, hl2, ?_, ?_⟩
  · rw [hc1]
    split <;> try split
    all_goals (try split)
    all_goals omega
  · rw [hm1]
    split <;> try split
    all_goals (try split)
    all_goals omega
  · rw [hc2]
    split <;> try split
    all_goals omega
  · rw [hm2]
    split <;> try split
    all_goals omega

/-- C3 counterexample: the client copy of `roleDistribution` (appended
client `models.ts` code in the server file) at player count 2 yields
1 saboteur, refuting "exactly 0 saboteurs when n < 3" for that copy. -/
theorem C3_counterexample_client_copy_two_players :
    (clientRoleDistribution (fun _ => 0) 2).count "saboteur" ≠ 0 := by
  decide

theorem find?_key_cons_pos {α : Type} (q : String × α) (rest : List (String × α))
    (k : String) (h : (q.1 == k) = true) :
    List.find? (fun p => p.1 == k) (q :: rest) = some q :=
  List.find?_cons_of_pos rest h

theorem find?_key_cons_neg {α : Type} (q : String × α) (rest : List (String × α))
    (k : String) (h : ¬ (q.1 == k) = true) :
    List.find? (fun p => p.1 == k) (q :: rest) = List.find? (fun p => p.1 == k) rest :=
  List.find?_cons_of_neg rest h

theorem alGet_map_set_self {α : Type} (m : List (String × α)) (k : String) (v : α)
    (h : m.any (fun p => p.1 == k) = true) :
    alGet (m.map (fun p => if p.1 == k then (k, v) else p)) k = some v := by
  induction m with
  | nil => simp at h
  | cons q rest ih =>
    by_cases hq : (q.1 == k) = true
    · simp only [List.map_cons, if_pos hq]
      unfold alGet
      rw [find?_key_cons_pos _ _ _ (by simp)]
      rfl
    · simp only [List.map_cons, if_neg hq]
      unfold alGet
      rw [find?_key_cons_neg _ _ _ hq]
      have hrest : rest.any (fun p => p.1 == k) = true := by
        rw [List.any_cons] at h
        rw [Bool.not_eq_true] at hq
        rw [hq] at h
        simpa using h
      exact ih hrest

theorem alGet_append_single {α : Type} (m : List (String × α)) (k : String) (v : α)
    (h : ¬ m.any (fun p => p.1 == k) = true) :
    alGet (m ++ [(k, v)]) k = some v := by
  unfold alGet
  rw [List.find?_append]
  have hnone : m.find? (fun p => p.1 == k) = none := by
    rw [List.find?_eq_none]
    intro p hp hc
    exact h (List.any_eq_true.mpr ⟨p, hp, hc⟩)
  rw [hnone]
  rw [Option.none_or, find?_key_cons_pos _ _ _ (by simp)]
  rfl

theorem alGet_alSet_self {α : Type} (m : List (String × α)) (k : String) (v : α) :
    alGet (alSet m k v) k = some v := by
  unfold alSet
  split
  · exact alGet_map_set_self m k v (by assumption)
  · exact alGet_append_single m k v (by assumption)

theorem alGet_map_set_ne {α : Type} (m : List (String × α)) (k k' : String) (v : α)
    (h : k' ≠ k) :
    alGet (m.map (fun p => if p.1 == k then (k, v) else p)) k' = alGet m k' := by
  have hkv : ¬ (((k, v) : String × α).1 == k') = true := by
    simp only [beq_iff_eq]
    exact fun hc => h hc.symm
  induction m with
  | nil => rfl
  | cons q rest ih =>
    by_cases hq : (q.1 == k) = true
    · simp only [List.map_cons, if_pos hq]
      unfold alGet
      rw [find?_key_cons_neg _ _ _ hkv]
      have h2 : ¬ (q.1 == k') = true := by
        simp only [beq_iff_eq]
        intro hc
        rw [beq_iff_eq] at hq
        rw [hc] at hq
        exact h hq
      rw [find?_key_cons_neg _ _ _ h2]
      exact ih
    · simp only [List.map_cons, if_neg hq]
      unfold alGet
      cases hq' : (q.1 == k') with
      | true =>
        rw [find?_key_cons_pos _ _ _ hq', find?_key_cons_pos _ _ _ hq']
      | false =>
        rw [find?_key_cons_neg _ _ _ (by simp [hq']),
          find?_key_cons_neg _ _ _ (by simp [hq'])]
        exact ih

theorem alGet_alSet_ne {α : Type} (m : List (String × α)) (k k' : String) (v : α)
    (h : k' ≠ k) : alGet (alSet m k v) k' = alGet m k' := by
  unfold alSet
  split
  · exact alGet_map_set_ne m k k' v h
  · unfold alGet
    rw [List.find?_append]
    cases hf : m.find? (fun p => p.1 == k') with
    | some p => rfl
    | none =>
      rw [Option.none_or, find?_key_cons_neg _ _ _ (by
        simp only [beq_iff_eq]
        exact fun hc => h hc.symm)]
      rfl

/-- Every entry of `alSet m k v` is `(k, v)` or an entry of `m`. -/
theorem mem_alSet {α : Type} (m : List (String × α)) (k : String) (v : α)
    (p : String × α) (hp : p ∈ alSet m k v) : p = (k, v) ∨ p ∈ m := by
  unfold alSet at hp
  split at hp
  · rw [List.mem_map] at hp
    obtain ⟨q, hq, hqe⟩ := hp
    by_cases hcase : (q.1 == k) = true
    · rw [if_pos hcase] at hqe
      exact Or.inl hqe.symm
    · rw [if_neg hcase] at hqe
      exact Or.inr (hqe ▸ hq)
  · rw [List.mem_append] at hp
    rcases hp with hp | hp
    · exact Or.inr hp
    · simp only [List.mem_singleton] at hp
      exact Or.inl hp

theorem creditPlayer_view (st : RewardState) (id : String) (v : ℚ) (k : String) :
    (alGet (creditPlayer st id v).1 k).map playerView = (alGet st.1 k).map playerView := by
  unfold creditPlayer
  dsimp only
  cases hid : alGet st.1 id with
  | none => rfl
  | some p =>
    by_cases hk : k = id
    · subst hk
      rw [alGet_alSet_self, hid]
      rfl
    · rw [alGet_alSet_ne _ _ _ _ hk]

theorem dealStep_view (order : List Player) (st : RewardState) (iv : Nat × ℚ) (k : String) :
    (alGet (dealStep order st iv).1 k).map playerView = (alGet st.1 k).map playerView := by
  unfold dealStep
  cases hx : order[iv.1 % order.length]? with
  | none => rfl
  | some m => exact creditPlayer_view st m.id iv.2 k

theorem foldl_dealStep_view (l : List (Nat × ℚ)) (order : List Player)
    (st : RewardState) (k : String) :
    (alGet (l.foldl (dealStep order) st).1 k).map playerView
      = (alGet st.1 k).map playerView := by
  induction l generalizing st with
  | nil => rfl
  | cons x xs ih => rw [List.foldl_cons, ih, dealStep_view]

theorem foldl_credit_view (l : List Player) (award : ℚ) (st : RewardState) (k : String) :
    (alGet (l.foldl (fun st s => creditPlayer st s.id award) st).1 k).map playerView
      = (alGet st.1 k).map playerView := by
  induction l generalizing st with
  | nil => rfl
  | cons x xs ih => rw [List.foldl_cons, ih, creditPlayer_view]

theorem applyRoundRewards_frame (rand : Nat → Nat) (room : Room) (pid : Option String) :
    (applyRoundRewards rand room pid).1.board = room.board ∧
    (applyRoundRewards rand room pid).1.deck = room.deck ∧
    (applyRoundRewards rand room pid).1.discard = room.discard ∧
    (applyRoundRewards rand room pid).1.roundEnded = room.roundEnded ∧
    (applyRoundRewards rand room pid).1.metrics.suspicionByPlayer
      = room.metrics.suspicionByPlayer ∧
    (applyRoundRewards rand room pid).1.metrics.efficiencyByPlayer
      = room.metrics.efficiencyByPlayer ∧
    (applyRoundRewards rand room pid).1.metrics.deckRemaining
      = room.metrics.deckRemaining := by
  unfold applyRoundRewards
  dsimp only
  repeat' split
  all_goals exact ⟨rfl, rfl, rfl, rfl, rfl, rfl, rfl⟩

theorem applyRoundRewards_view (rand : Nat → Nat) (room : Room) (pid : Option String)
    (k : String) :
    (alGet (applyRoundRewards rand room pid).1.players k).map playerView
      = (alGet room.players k).map playerView := by
  unfold applyRoundRewards
  dsimp only
  repeat' split
  all_goals first
    | rfl
    | exact foldl_dealStep_view _ _ _ k
    | exact foldl_credit_view _ _ _ k

theorem maybeFinishRound_frame (rand : Nat → Nat) (room : Room) (pid : Option String) :
    (maybeFinishRound rand room pid).board = room.board ∧
    (maybeFinishRound rand room pid).deck = room.deck ∧
    (maybeFinishRound rand room pid).discard = room.discard ∧
    (maybeFinishRound rand room pid).metrics.suspicionByPlayer
      = room.metrics.suspicionByPlayer ∧
    (maybeFinishRound rand room pid).metrics.efficiencyByPlayer
      = room.metrics.efficiencyByPlayer ∧
    (maybeFinishRound rand room pid).metrics.deckRemaining
      = room.metrics.deckRemaining := by
  unfold maybeFinishRound
  dsimp only
  repeat' split
  · exact ⟨rfl, rfl, rfl, rfl, rfl, rfl⟩
  · obtain ⟨h1, h2, h3, _, h5, h6, h7⟩ := applyRoundRewards_frame rand room pid
    exact ⟨h1, h2, h3, h5, h6, h7⟩
  · exact ⟨rfl, rfl, rfl, rfl, rfl, rfl⟩

theorem maybeFinishRound_view (rand : Nat → Nat) (room : Room) (pid : Option String)
    (k : String) :
    (alGet (maybeFinishRound rand room pid).players k).map playerView
      = (alGet room.players k).map playerView := by
  unfold maybeFinishRound
  dsimp only
  repeat' split
  · rfl
  · exact applyRoundRewards_view rand room pid k
  · rfl

theorem maybeDeclareSaboteurWin_frame (r : Room) :
    (maybeDeclareSaboteurWin r).players = r.players ∧
    (maybeDeclareSaboteurWin r).deck = r.deck ∧
    (maybeDeclareSaboteurWin r).discard = r.discard ∧
    (maybeDeclareSaboteurWin r).metrics = r.metrics ∧
    (maybeDeclareSaboteurWin r).board.tiles = r.board.tiles ∧
    (maybeDeclareSaboteurWin r).roundEnded = r.roundEnded := by
  unfold maybeDeclareSaboteurWin
  split
  all_goals exact ⟨rfl, rfl, rfl, rfl, rfl, rfl⟩

theorem postDrawChecks_frame (rand : Nat → Nat) (r : Room) :
    (maybeFinishRound rand (maybeDeclareSaboteurWin r) none).metrics.suspicionByPlayer
      = r.metrics.suspicionByPlayer ∧
    (maybeFinishRound rand (maybeDeclareSaboteurWin r) none).metrics.efficiencyByPlayer
      = r.metrics.efficiencyByPlayer ∧
    (maybeFinishRound rand (maybeDeclareSaboteurWin r) none).discard = r.discard ∧
    (maybeFinishRound rand (maybeDeclareSaboteurWin r) none).deck = r.deck ∧
    (maybeFinishRound rand (maybeDeclareSaboteurWin r) none).board.winningTeam
      = (maybeDeclareSaboteurWin r).board.winningTeam := by
  obtain ⟨m1, m2, m3, m4, m5, m6⟩ :=
    maybeFinishRound_frame rand (maybeDeclareSaboteurWin r) none
  obtain ⟨d1, d2, d3, d4, d5, d6⟩ := maybeDeclareSaboteurWin_frame r
  refine ⟨?_, ?_, ?_, ?_, ?_⟩
  · rw [m4]
    exact congrArg Metrics.suspicionByPlayer d4
  · rw [m5]
    exact congrArg Metrics.efficiencyByPlayer d4
  · rw [m3, d3]
  · rw [m2, d2]
  · exact congrArg Board.winningTeam m1

theorem postDrawChecks_view (rand : Nat → Nat) (r : Room) (k : String) :
    (alGet (maybeFinishRound rand (maybeDeclareSaboteurWin r) none).players k).map playerView
      = (alGet r.players k).map playerView := by
  rw [maybeFinishRound_view, (maybeDeclareSaboteurWin_frame r).1]

/-- The hand-extension step of `drawCards`, factored for frame reasoning. -/
theorem handAppend_view (m : List (String × Player)) (pid : String)
    (cards : List CardInstance) (k : String) :
    (alGet (match alGet m pid with
            | some p => alSet m pid { p with hand := p.hand ++ cards }
            | none => m) k).map playerView = (alGet m k).map playerView := by
  cases h : alGet m pid with
  | none => rfl
  | some p =>
    by_cases hk : k = pid
    · subst hk
      rw [alGet_alSet_self, h]
      rfl
    · rw [alGet_alSet_ne _ _ _ _ hk]

theorem drawCards_frame (rand : Nat → Nat) (room : Room) (pid : String) (n : Nat) :
    (drawCards rand room pid n).metrics.suspicionByPlayer
      = room.metrics.suspicionByPlayer ∧
    (drawCards rand room pid n).metrics.efficiencyByPlayer
      = room.metrics.efficiencyByPlayer ∧
    (drawCards rand room pid n).discard = room.discard := by
  unfold drawCards
  dsimp only
  exact ⟨(postDrawChecks_frame _ _).1, (postDrawChecks_frame _ _).2.1,
    (postDrawChecks_frame _ _).2.2.1⟩

theorem drawCards_view (rand : Nat → Nat) (room : Room) (pid : String) (n : Nat)
    (k : String) :
    (alGet (drawCards rand room pid n).players k).map playerView
      = (alGet room.players k).map playerView := by
  unfold drawCards
  dsimp only
  rw [postDrawChecks_view]
  exact handAppend_view room.players pid (drawLoop n room.deck []).2 k

theorem syncBoardTelemetry_frame (room : Room) :
    (syncBoardTelemetry room).players = room.players ∧
    (syncBoardTelemetry room).deck = room.deck ∧
    (syncBoardTelemetry room).discard = room.discard ∧
    (syncBoardTelemetry room).metrics.suspicionByPlayer
      = room.metrics.suspicionByPlayer ∧
    (syncBoardTelemetry room).metrics.efficiencyByPlayer
      = room.metrics.efficiencyByPlayer ∧
    (syncBoardTelemetry room).roundEnded = room.roundEnded := by
  unfold syncBoardTelemetry maybeDeclareSaboteurWin
  dsimp only
  repeat' split
  all_goals exact ⟨rfl, rfl, rfl, rfl, rfl, rfl⟩

theorem advanceTurn_frame (now : Int) (room : Room) :
    (advanceTurn now room).players = room.players ∧
    (advanceTurn now room).board = room.board ∧
    (advanceTurn now room).deck = room.deck ∧
    (advanceTurn now room).discard = room.discard ∧
    (advanceTurn now room).metrics.suspicionByPlayer
      = room.metrics.suspicionByPlayer ∧
    (advanceTurn now room).metrics.efficiencyByPlayer
      = room.metrics.efficiencyByPlayer ∧
    (advanceTurn now room).roundEnded = room.roundEnded := by
  unfold advanceTurn
  dsimp only
  repeat' split
  all_goals exact ⟨rfl, rfl, rfl, rfl, rfl, rfl, rfl⟩

theorem postDrawChecks_saboteur_win (rand : Nat → Nat) (r : Room)
    (hNoWin : isTruthy r.board.winningTeam = false)
    (hZero : r.metrics.deckRemaining = 0) :
    (maybeFinishRound rand (maybeDeclareSaboteurWin r) none).board.winningTeam
      = some "saboteur" := by
  have hD : (maybeDeclareSaboteurWin r).board.winningTeam = some "saboteur" := by
    unfold maybeDeclareSaboteurWin
    rw [if_pos]
    · rw [hNoWin, hZero]
      rfl
  rw [(postDrawChecks_frame rand r).2.2.2.2, hD]

/-- C5: whenever a draw step (`drawCards`, reached from placement, rockfall
and tool-effect redraws as well as from a joining player's initial hand)
leaves the deck empty while no winning team is set, `winningTeam` is set
to `"saboteur"` inside that very call. -/
theorem C5_deck_exhaustion_saboteur_win (rand : Nat → Nat) (room : Room)
    (pid : String) (count : Nat)
    (hNoWin : isTruthy room.board.winningTeam = false)
    (hEmpty : (drawCards rand room pid count).deck = []) :
    (drawCards rand room pid count).board.winningTeam = some "saboteur" := by
  unfold drawCards at hEmpty ⊢
  dsimp only at hEmpty ⊢
  refine postDrawChecks_saboteur_win rand _ hNoWin ?_
  rw [(postDrawChecks_frame rand _).2.2.2.1] at hEmpty
  have h2 : (drawLoop count room.deck []).1 = [] := hEmpty
  show (drawLoop count room.deck []).1.length = 0
  rw [h2]
  rfl

theorem syncBoardTelemetry_tiles (room : Room) :
    (syncBoardTelemetry room).board.tiles
      = room.board.tiles.map (fun t0 =>
          if t0.tileType == "goal" && (exploreBoard room.board).visited.contains t0.id
          then { t0 with revealed := true } else t0) := by
  unfold syncBoardTelemetry maybeDeclareSaboteurWin
  dsimp only
  repeat' split
  all_goals rfl

/-- C4: whenever the connectivity recomputation of `syncBoardTelemetry`
finds a goal tile in the BFS visited set, that goal tile comes out of the
same recomputation with `revealed = true`, and if it is the gold goal the
board's `winningTeam` is `"miner"` already in the state this call returns. -/
theorem C4_goal_reveal_and_miner_win (room : Room) (t : Tile)
    (hmem : t ∈ room.board.tiles) (hgoal : t.tileType = "goal")
    (hvis : (exploreBoard room.board).visited.contains t.id = true) :
    ({ t with revealed := true } ∈ (syncBoardTelemetry room).board.tiles) ∧
    (t.cardKey = some "gold" →
      (syncBoardTelemetry room).board.winningTeam = some "miner") := by
  constructor
  · rw [syncBoardTelemetry_tiles]
    refine List.mem_map.mpr ⟨t, hmem, ?_⟩
    rw [hgoal, hvis]
    rfl
  · intro hgold
    have hany : (room.board.tiles.any (fun t0 =>
        t0.tileType == "goal" && (exploreBoard room.board).visited.contains t0.id
          && t0.cardKey == some "gold")) = true := by
      refine List.any_eq_true.mpr ⟨t, hmem, ?_⟩
      rw [hgoal, hgold, hvis]
      rfl
    unfold syncBoardTelemetry maybeDeclareSaboteurWin
    dsimp only
    rw [if_pos hany]
    rw [if_neg (by
      intro hcond
      rw [show isTruthy (some "miner") = true from by decide] at hcond
      simp at hcond)]

theorem placeCard_ok_efficiency (rand : Nat → Nat) (now : Int) (room : Room)
    (pid : String) (pp : PlacePayload)
    (h : (placeCard rand now room pid pp).2.isOk = true) :
    (placeCard rand now room pid pp).1.metrics.efficiencyByPlayer
      = alSet room.metrics.efficiencyByPlayer pid
          (alGetD room.metrics.efficiencyByPlayer pid 0
            + (room.metrics.progress - room.metrics.progress)) := by
  generalize hE : placeCard rand now room pid pp = P at h ⊢
  obtain ⟨r, res⟩ := P
  unfold placeCard at hE
  dsimp only at hE
  repeat' split at hE
  all_goals (injection hE with h1 h2)
  all_goals subst h1
  all_goals subst h2
  all_goals (first
    | (exfalso; simp [PlaceResult.isOk] at h; done)
    | rw [(maybeFinishRound_frame _ _ _).2.2.2.2.1,
          (advanceTurn_frame _ _).2.2.2.2.2.1,
          (syncBoardTelemetry_frame _).2.2.2.2.1,
          (drawCards_frame _ _ _ _).2.1])

/-- C9: a successful `placeCard` adds exactly zero to the acting player's
`efficiencyByPlayer` entry (the progress delta is computed from two reads
that both happen before `syncBoardTelemetry` recomputes progress), leaves
every other player's entry untouched, and therefore the entries can never
move away from 0 within a round. -/
theorem C9_efficiency_never_moves (rand : Nat → Nat) (now : Int) (room : Room)
    (pid : String) (pp : PlacePayload)
    (h : (placeCard rand now room pid pp).2.isOk = true) :
    alGet (placeCard rand now room pid pp).1.metrics.efficiencyByPlayer pid
      = some (alGetD room.metrics.efficiencyByPlayer pid 0) ∧
    (∀ k, k ≠ pid →
      alGet (placeCard rand now room pid pp).1.metrics.efficiencyByPlayer k
        = alGet room.metrics.efficiencyByPlayer k) ∧
    ((∀ p ∈ room.metrics.efficiencyByPlayer, p.2 = 0) →
      ∀ p ∈ (placeCard rand now room pid pp).1.metrics.efficiencyByPlayer, p.2 = 0) := by
  rw [placeCard_ok_efficiency rand now room pid pp h]
  refine ⟨?_, ?_, ?_⟩
  · rw [alGet_alSet_self]
    congr 1
    ring
  · intro k hk
    exact alGet_alSet_ne _ _ _ _ hk
  · intro hall p hp
    rcases mem_alSet _ _ _ _ hp with hp1 | hp1
    · rw [hp1]
      dsimp only
      have hz : alGetD room.metrics.efficiencyByPlayer pid 0 = 0 := by
        unfold alGetD alGet
        cases hf : room.metrics.efficiencyByPlayer.find? (fun q => q.1 == pid) with
        | none => rfl
        | some q =>
          have hq := hall q (List.mem_of_find?_eq_some hf)
          simp [hq]
      rw [hz]
      ring
    · exact hall p hp1

theorem any_attach_iff (board : Board) (tile : Tile) (c : Connectors) :
    ((neighborDirs.any (fun d =>
      match findNeighbor board tile d with
      | none => false
      | some nb =>
        match nb.connectors with
        | none => false
        | some nc => c.get d && nc.get d.opposite)) = true)
    ↔ ∃ d ∈ neighborDirs, validAttachAt board tile c d := by
  rw [List.any_eq_true]
  constructor
  · rintro ⟨d, hd, hp⟩
    refine ⟨d, hd, ?_⟩
    cases hnb : findNeighbor board tile d with
    | none =>
      rw [hnb] at hp
      simp at hp
    | some nb =>
      rw [hnb] at hp
      dsimp only at hp
      cases hnc : nb.connectors with
      | none =>
        rw [hnc] at hp
        simp at hp
      | some nc =>
        rw [hnc] at hp
        dsimp only at hp
        simp only [Bool.and_eq_true] at hp
        exact ⟨nb, nc, hnb, hnc, hp.1, hp.2⟩
  · rintro ⟨d, hd, nb, nc, hnb, hnc, h1, h2⟩
    refine ⟨d, hd, ?_⟩
    rw [hnb]
    dsimp only
    rw [hnc]
    dsimp only
    rw [h1, h2]
    rfl

theorem any_mismatch_iff (board : Board) (tile : Tile) (c : Connectors) :
    ((neighborDirs.any (fun d =>
      match findNeighbor board tile d with
      | none => false
      | some nb =>
        match nb.connectors with
        | none => false
        | some nc =>
          !(c.get d && nc.get d.opposite) && (c.get d || nc.get d.opposite))) = true)
    ↔ ∃ d ∈ neighborDirs, mismatchAt board tile c d := by
  rw [List.any_eq_true]
  constructor
  · rintro ⟨d, hd, hp⟩
    refine ⟨d, hd, ?_⟩
    cases hnb : findNeighbor board tile d with
    | none =>
      rw [hnb] at hp
      simp at hp
    | some nb =>
      rw [hnb] at hp
      dsimp only at hp
      cases hnc : nb.connectors with
      | none =>
        rw [hnc] at hp
        simp at hp
      | some nc =>
        rw [hnc] at hp
        dsimp only at hp
        refine ⟨nb, nc, hnb, hnc, ?_⟩
        revert hp
        cases c.get d <;> cases nc.get d.opposite <;> decide
  · rintro ⟨d, hd, nb, nc, hnb, hnc, h1⟩
    refine ⟨d, hd, ?_⟩
    rw [hnb]
    dsimp only
    rw [hnc]
    dsimp only
    revert h1
    cases c.get d <;> cases nc.get d.opposite <;> decide

/-- C1 (amended): for every `placeCard` call that passes the turn, player,
tool, card, category and tile validations, a mismatch is recorded for a
direction only when a neighbor tile exists there, has connectors, and
exactly one side of the shared edge is open; an open connector facing the
board edge or a tile without connectors is skipped, not a mismatch. The
placement succeeds iff at least one direction forms a valid attachment and
no direction records such a mismatch; otherwise it fails with the
no-clean-connection error. -/
theorem C1_placement_connection_rule (rand : Nat → Nat) (now : Int) (room : Room)
    (pid : String) (pp : PlacePayload) (player : Player) (card : CardInstance) (tile : Tile)
    (hTurn : (isTruthy room.metrics.activePlayerId
      && room.metrics.activePlayerId != some pid) = false)
    (hPlayer : alGet room.players pid = some player)
    (hTool : player.toolBroken = false)
    (hCard : player.hand.find? (fun c => c.instanceId == pp.cardInstanceId) = some card)
    (hCat : ((cardLibrary card.cardKey).map (fun d => d.category)) = some "path")
    (hTile : findTile room.board pp.targetTileId = some tile)
    (hNotSG : (tile.tileType == "start" || tile.tileType == "goal") = false)
    (hNotPath : (tile.tileType == "path") = false) :
    ((placeCard rand now room pid pp).2.isOk = true ↔
      ((∃ d ∈ neighborDirs, validAttachAt room.board tile (placedConnectors card pp) d) ∧
       (∀ d ∈ neighborDirs, ¬ mismatchAt room.board tile (placedConnectors card pp) d))) ∧
    ((placeCard rand now room pid pp).2.isOk = false →
      (placeCard rand now room pid pp).2 = .error "Card does not connect cleanly") := by
  unfold placeCard placedConnectors
  simp only [hTurn, hPlayer, hTool, hCard, hCat, hTile, hNotSG, hNotPath,
    Bool.false_eq_true, if_false, bne_self_eq_false]
  constructor
  · split
    · rename_i hcond
      simp only [PlaceResult.isOk]
      constructor
      · intro hfalse
        exact absurd hfalse (by simp)
      · rintro ⟨hattach, hnomis⟩
        rw [Bool.or_eq_true] at hcond
        rcases hcond with hA | hM
        · rw [Bool.not_eq_eq_eq_not] at hA
          have := (any_attach_iff room.board tile _).mpr hattach
          rw [this] at hA
          simp at hA
        · obtain ⟨d, hd, hmis⟩ := (any_mismatch_iff room.board tile _).mp hM
          exact (hnomis d hd hmis).elim
    · rename_i hcond
      simp only [PlaceResult.isOk]
      rw [Bool.or_eq_true] at hcond
      push_neg at hcond
      constructor
      · intro _
        constructor
        · refine (any_attach_iff room.board tile _).mp ?_
          have hA := hcond.1
          cases hAv : (neighborDirs.any fun d =>
            match findNeighbor room.board tile d with
            | none => false
            | some nb =>
              match nb.connectors with
              | none => false
              | some nc =>
                ((rotateConnectors ((cardLibrary card.cardKey).bind fun d => d.connectors)
                    pp.rotation).getD
                  { north := false, east := false, south := false, west := false }).get d &&
                  nc.get d.opposite) with
          | true => rfl
          | false => exact absurd (by rw [hAv]; rfl) hA
        · intro d hd hmis
          have hM := hcond.2
          exact hM ((any_mismatch_iff room.board tile _).mpr ⟨d, hd, hmis⟩)
      · intro _
        trivial
  · split
    · intro _
      rfl
    · intro h
      simp [PlaceResult.isOk] at h

theorem SuspInv_alSet (m : List (String × ℚ)) (k : String) (v : ℚ)
    (hv0 : 0 ≤ v) (hv1 : v ≤ 1) (hInv : SuspInv m) : SuspInv (alSet m k v) := by
  intro p hp
  rcases mem_alSet m k v p hp with h | h
  · rw [h]
    exact ⟨hv0, hv1⟩
  · exact hInv p h

theorem SuspInv_getD (m : List (String × ℚ)) (k : String) (hInv : SuspInv m) :
    0 ≤ alGetD m k 0 ∧ alGetD m k 0 ≤ 1 := by
  unfold alGetD alGet
  cases hf : m.find? (fun p => p.1 == k) with
  | none => exact ⟨le_refl 0, by norm_num⟩
  | some q => exact hInv q (List.mem_of_find?_eq_some hf)

theorem placeCard_susp (rand : Nat → Nat) (now : Int) (room : Room)
    (pid : String) (pp : PlacePayload) :
    (placeCard rand now room pid pp).1.metrics.suspicionByPlayer
      = room.metrics.suspicionByPlayer ∨
    (placeCard rand now room pid pp).1.metrics.suspicionByPlayer
      = alSet room.metrics.suspicionByPlayer pid
          (max 0 (alGetD room.metrics.suspicionByPlayer pid 0 - 0.05)) := by
  generalize hE : placeCard rand now room pid pp = P
  obtain ⟨r, res⟩ := P
  unfold placeCard at hE
  dsimp only at hE
  repeat' split at hE
  all_goals (injection hE with h1 h2)
  all_goals subst h1
  all_goals first
    | exact Or.inl rfl
    | (right
       rw [(maybeFinishRound_frame _ _ _).2.2.2.1,
           (advanceTurn_frame _ _).2.2.2.2.1,
           (syncBoardTelemetry_frame _).2.2.2.1,
           (drawCards_frame _ _ _ _).1])

theorem triggerRockfall_susp (rand : Nat → Nat) (now : Int) (room : Room)
    (pid : String) (tid : String) :
    (triggerRockfall rand now room pid tid).1.metrics.suspicionByPlayer
      = room.metrics.suspicionByPlayer ∨
    (triggerRockfall rand now room pid tid).1.metrics.suspicionByPlayer
      = alSet room.metrics.suspicionByPlayer pid
          (min 1 (alGetD room.metrics.suspicionByPlayer pid 0 + 0.15)) := by
  generalize hE : triggerRockfall rand now room pid tid = P
  obtain ⟨r, res⟩ := P
  unfold triggerRockfall at hE
  dsimp only at hE
  repeat' split at hE
  all_goals (injection hE with h1 h2)
  all_goals subst h1
  all_goals first
    | exact Or.inl rfl
    | (right
       rw [(advanceTurn_frame _ _).2.2.2.2.1,
           (syncBoardTelemetry_frame _).2.2.2.1,
           (drawCards_frame _ _ _ _).1])

theorem applyToolEffect_susp (rand : Nat → Nat) (now : Int) (room : Room)
    (pid : String) (tp : ToolPayload) :
    (applyToolEffect rand now room pid tp).1.metrics.suspicionByPlayer
      = room.metrics.suspicionByPlayer ∨
    (applyToolEffect rand now room pid tp).1.metrics.suspicionByPlayer
      = alSet room.metrics.suspicionByPlayer pid
          (min 1 (alGetD room.metrics.suspicionByPlayer pid 0 + 0.12)) ∨
    (applyToolEffect rand now room pid tp).1.metrics.suspicionByPlayer
      = alSet room.metrics.suspicionByPlayer pid
          (max 0 (alGetD room.metrics.suspicionByPlayer pid 0 - 0.04)) := by
  generalize hE : applyToolEffect rand now room pid tp = P
  obtain ⟨r, res⟩ := P
  unfold applyToolEffect at hE
  dsimp only at hE
  repeat' split at hE
  all_goals (injection hE with h1 h2)
  all_goals subst h1
  all_goals first
    | exact Or.inl rfl
    | (refine Or.inr (Or.inl ?_)
       rw [(advanceTurn_frame _ _).2.2.2.2.1, (drawCards_frame _ _ _ _).1]
       done)
    | (refine Or.inr (Or.inr ?_)
       rw [(advanceTurn_frame _ _).2.2.2.2.1, (drawCards_frame _ _ _ _).1]
       done)

theorem insertBase_susp_map (randRole : Nat → Nat) (room : Room) (sid name : String) :
    (insertBase randRole room sid name).1.metrics.suspicionByPlayer
      = alSet room.metrics.suspicionByPlayer sid (insertBase randRole room sid name).2.suspicion := by
  unfold insertBase
  dsimp only

theorem insertPlayer_susp (randRole randReward : Nat → Nat) (now : Int) (room : Room)
    (sid name : String) :
    ∃ v : ℚ, (v = 0.5 ∨ v = 0) ∧
      (insertPlayer randRole randReward now room sid name).1.metrics.suspicionByPlayer
        = alSet room.metrics.suspicionByPlayer sid v := by
  refine ⟨(insertBase randRole room sid name).2.suspicion, ?_, ?_⟩
  · unfold insertBase
    dsimp only
    split
    · exact Or.inl rfl
    · exact Or.inr rfl
  · unfold insertPlayer
    dsimp only
    repeat' split
    all_goals rw [(drawCards_frame _ _ _ _).1]
    all_goals exact insertBase_susp_map randRole room sid name

theorem resetPlayerStep_suspInv (roles : List String) (randReward : Nat → Nat)
    (acc : Room) (ip : Nat × (String × Player))
    (h : SuspInv acc.metrics.suspicionByPlayer) :
    SuspInv (resetPlayerStep roles randReward acc ip).metrics.suspicionByPlayer := by
  unfold resetPlayerStep
  cases hp : alGet acc.players ip.2.1 with
  | none => exact h
  | some player =>
    dsimp only
    rw [(drawCards_frame _ _ _ _).1]
    refine SuspInv_alSet _ _ _ ?_ ?_ h
    · split
      · norm_num
      · norm_num
    · split
      · norm_num
      · norm_num

theorem resetFold_suspInv (roles : List String) (randReward : Nat → Nat)
    (l : List (Nat × (String × Player))) (acc : Room)
    (h : SuspInv acc.metrics.suspicionByPlayer) :
    SuspInv ((l.foldl (resetPlayerStep roles randReward) acc).metrics.suspicionByPlayer) := by
  induction l generalizing acc with
  | nil => exact h
  | cons x xs ih =>
    rw [List.foldl_cons]
    exact ih _ (resetPlayerStep_suspInv roles randReward acc x h)

theorem resetRoom_suspInv (goldPick : Nat) (freshId : Nat → String)
    (randDeck randRole randReward : Nat → Nat) (now : Int) (room : Room) :
    SuspInv ((resetRoom goldPick freshId randDeck randRole randReward now room)
      |>.metrics.suspicionByPlayer) := by
  unfold resetRoom
  dsimp only
  rw [(syncBoardTelemetry_frame _).2.2.2.1]
  split
  · exact resetFold_suspInv _ _ _ _ (fun p hp => by simp at hp)
  · exact resetFold_suspInv _ _ _ _ (fun p hp => by simp at hp)

/-- C8: every suspicion value stays inside `[0, 1]` after every operation:
the placement decrease of 0.05 and the repair decrease of 0.04 are floored
at 0, the rockfall increase of 0.15 and the break increase of 0.12 are
capped at 1, and the values installed on join and on restart are 0.5 or 0. -/
theorem C8_suspicion_in_unit_interval
    (rand randRole randReward randDeck : Nat → Nat) (now : Int) (room : Room)
    (pid sid name tid : String) (pp : PlacePayload) (tp : ToolPayload)
    (goldPick : Nat) (freshId : Nat → String)
    (hInv : SuspInv room.metrics.suspicionByPlayer) :
    SuspInv (placeCard rand now room pid pp).1.metrics.suspicionByPlayer ∧
    SuspInv (triggerRockfall rand now room pid tid).1.metrics.suspicionByPlayer ∧
    SuspInv (applyToolEffect rand now room pid tp).1.metrics.suspicionByPlayer ∧
    SuspInv (insertPlayer randRole randReward now room sid name).1.metrics.suspicionByPlayer ∧
    SuspInv ((resetRoom goldPick freshId randDeck randRole randReward now room)
      |>.metrics.suspicionByPlayer) := by
  have hged := SuspInv_getD room.metrics.suspicionByPlayer pid hInv
  refine ⟨?_, ?_, ?_, ?_, resetRoom_suspInv goldPick freshId randDeck randRole randReward now room⟩
  · rcases placeCard_susp rand now room pid pp with h | h <;> rw [h]
    · exact hInv
    · refine SuspInv_alSet _ _ _ (le_max_left 0 _) ?_ hInv
      refine max_le (by norm_num) ?_
      linarith [hged.2]
  · rcases triggerRockfall_susp rand now room pid tid with h | h <;> rw [h]
    · exact hInv
    · refine SuspInv_alSet _ _ _ ?_ (min_le_left 1 _) hInv
      refine le_min (by norm_num) ?_
      linarith [hged.1]
  · rcases applyToolEffect_susp rand now room pid tp with h | h | h <;> rw [h]
    · exact hInv
    · refine SuspInv_alSet _ _ _ ?_ (min_le_left 1 _) hInv
      refine le_min (by norm_num) ?_
      linarith [hged.1]
    · refine SuspInv_alSet _ _ _ (le_max_left 0 _) ?_ hInv
      refine max_le (by norm_num) ?_
      linarith [hged.2]
  · obtain ⟨v, hv, heq⟩ := insertPlayer_susp randRole randReward now room sid name
    rw [heq]
    rcases hv with hv | hv <;> rw [hv]
    · exact SuspInv_alSet _ _ _ (by norm_num) (by norm_num) hInv
    · exact SuspInv_alSet _ _ _ (by norm_num) (by norm_num) hInv

/-- Witness for C8 at a concrete room whose suspicion map satisfies the
invariant, propagated through a successful placement. -/
theorem C8_witness :
    SuspInv wPlaceRoom.metrics.suspicionByPlayer ∧
    SuspInv (placeCard (fun _ => 0) 0 wPlaceRoom "p1" wPlacePayload).1.metrics.suspicionByPlayer :=
  ⟨by unfold SuspInv; decide,
   (C8_suspicion_in_unit_interval (fun _ => 0) (fun _ => 0) (fun _ => 0) (fun _ => 0) 0
      wPlaceRoom "p1" "p2" "" "0-1" wPlacePayload ⟨"p1", "break"⟩ 0 (fun _ => "")
      (by unfold SuspInv; decide)).1⟩

theorem roleDistribution_mem (rand : Nat → Nat) (n : Nat) (r : String)
    (h : r ∈ roleDistribution rand n) : r = "saboteur" ∨ r = "miner" := by
  unfold roleDistribution at h
  dsimp only at h
  have hp := (fisherYates_perm rand _).mem_iff.mp h
  rw [List.mem_map] at hp
  obtain ⟨i, _, hi⟩ := hp
  by_cases hlt : i < (if n ≥ 7 then 3 else if n ≥ 5 then 2 else if n ≥ 3 then 1 else 0)
  · rw [if_pos hlt] at hi
    exact Or.inl hi.symm
  · rw [if_neg hlt] at hi
    exact Or.inr hi.symm

theorem roleDistribution_getD_mem (rand : Nat → Nat) (n i : Nat) :
    (roleDistribution rand n).getD i "miner" = "saboteur" ∨
    (roleDistribution rand n).getD i "miner" = "miner" := by
  unfold List.getD
  cases hx : (roleDistribution rand n).get? i with
  | none => exact Or.inr rfl
  | some r => exact roleDistribution_mem rand n r (List.get?_mem hx)

/-- Following a player entry through `drawCards`: it stays present and its
id, role and suspicion field are untouched. -/
theorem drawCards_entry (rand : Nat → Nat) (r : Room) (pid k : String) (n : Nat) (p : Player)
    (h : alGet r.players k = some p) :
    ∃ q, alGet (drawCards rand r pid n).players k = some q ∧
      q.id = p.id ∧ q.role = p.role ∧ q.suspicion = p.suspicion := by
  have hv := drawCards_view rand r pid n k
  rw [h] at hv
  cases hq : alGet (drawCards rand r pid n).players k with
  | none =>
    rw [hq] at hv
    exact absurd hv (by simp)
  | some q =>
    rw [hq] at hv
    rw [Option.map_some', Option.map_some'] at hv
    injection hv with hv
    unfold playerView at hv
    injection hv with h1 h23
    injection h23 with h2 h3
    exact ⟨q, rfl, h1, h2, h3⟩

theorem alGet_mem {α : Type} (m : List (String × α)) (k : String) (v : α)
    (h : alGet m k = some v) : ∃ pair, pair ∈ m ∧ pair.1 = k ∧ pair.2 = v := by
  unfold alGet at h
  cases hf : m.find? (fun p => p.1 == k) with
  | none =>
    rw [hf] at h
    simp at h
  | some pair =>
    rw [hf, Option.map_some'] at h
    injection h with h2
    have hpred := @List.find?_some _ (fun (p : String × α) => p.1 == k) pair m hf
    exact ⟨pair, List.mem_of_find?_eq_some hf, beq_iff_eq.mp hpred, h2⟩

theorem serializePlayers_mem (rm : Room) (req : Option String) (kp : String × Player)
    (h : kp ∈ rm.players) :
    ({ id := kp.2.id, name := kp.2.name,
       role := if some kp.2.id == req then kp.2.role else "unknown",
       connected := kp.2.connected, toolBroken := kp.2.toolBroken,
       suspicion := alGetD rm.metrics.suspicionByPlayer kp.2.id 0,
       score := kp.2.score } : SerializedPlayer) ∈ serializePlayers rm req := by
  unfold serializePlayers
  exact List.mem_map.mpr ⟨kp, h, rfl⟩

theorem insertBase_players_self (randRole : Nat → Nat) (room : Room) (sid name : String) :
    alGet (insertBase randRole room sid name).1.players sid
      = some (insertBase randRole room sid name).2 := by
  unfold insertBase
  dsimp only
  exact alGet_alSet_self _ _ _

theorem insertBase_id (randRole : Nat → Nat) (room : Room) (sid name : String) :
    (insertBase randRole room sid name).2.id = sid := by
  unfold insertBase
  dsimp only

theorem insertBase_role (randRole : Nat → Nat) (room : Room) (sid name : String) :
    (insertBase randRole room sid name).2.role
      = (roleDistribution randRole (room.players.length + 1)).getD
          (room.players.length + 1 - 1) "miner" := by
  unfold insertBase
  dsimp only

theorem insertBase_suspVal (randRole : Nat → Nat) (room : Room) (sid name : String) :
    (insertBase randRole room sid name).2.suspicion
      = (if (insertBase randRole room sid name).2.role == "saboteur" then (0.5 : ℚ) else 0) := by
  unfold insertBase
  dsimp only

theorem insertBase_susp_self (randRole : Nat → Nat) (room : Room) (sid name : String) :
    alGet (insertBase randRole room sid name).1.metrics.suspicionByPlayer sid
      = some (insertBase randRole room sid name).2.suspicion := by
  rw [insertBase_susp_map]
  exact alGet_alSet_self _ _ _

theorem insertPlayer_result (randRole randReward : Nat → Nat) (now : Int) (room : Room)
    (sid name : String) :
    alGet (insertPlayer randRole randReward now room sid name).1.players sid
      = some (insertPlayer randRole randReward now room sid name).2 ∧
    (insertPlayer randRole randReward now room sid name).2.id = sid ∧
    ((insertPlayer randRole randReward now room sid name).2.role = "saboteur" ∨
     (insertPlayer randRole randReward now room sid name).2.role = "miner") ∧
    (insertPlayer randRole randReward now room sid name).2.suspicion
      = (if (insertPlayer randRole randReward now room sid name).2.role == "saboteur"
         then (0.5 : ℚ) else 0) ∧
    alGet (insertPlayer randRole randReward now room sid name).1.metrics.suspicionByPlayer sid
      = some (insertPlayer randRole randReward now room sid name).2.suspicion := by
  obtain ⟨q, hq, hqid, hqrole, hqsusp⟩ :=
    drawCards_entry randReward (insertBase randRole room sid name).1 sid sid 5
      (insertBase randRole room sid name).2 (insertBase_players_self randRole room sid name)
  have hsusp2 : alGet ((drawCards randReward (insertBase randRole room sid name).1 sid 5)
        |>.metrics.suspicionByPlayer) sid
      = some (insertBase randRole room sid name).2.suspicion := by
    rw [(drawCards_frame _ _ _ _).1]
    exact insertBase_susp_self randRole room sid name
  have g1 : alGet (drawCards randReward (insertBase randRole room sid name).1 sid 5).players sid
      = some ((alGet (drawCards randReward (insertBase randRole room sid name).1 sid 5).players sid).getD
          (insertBase randRole room sid name).2) := by
    rw [hq]
    rfl
  have g2 : ((alGet (drawCards randReward (insertBase randRole room sid name).1 sid 5).players sid).getD
      (insertBase randRole room sid name).2).id = sid := by
    rw [hq]
    show q.id = sid
    rw [hqid]
    exact insertBase_id randRole room sid name
  have g3 : ((alGet (drawCards randReward (insertBase randRole room sid name).1 sid 5).players sid).getD
        (insertBase randRole room sid name).2).role = "saboteur" ∨
      ((alGet (drawCards randReward (insertBase randRole room sid name).1 sid 5).players sid).getD
        (insertBase randRole room sid name).2).role = "miner" := by
    rw [hq]
    show q.role = "saboteur" ∨ q.role = "miner"
    rw [hqrole, insertBase_role]
    exact roleDistribution_getD_mem randRole (room.players.length + 1) (room.players.length + 1 - 1)
  have g4 : ((alGet (drawCards randReward (insertBase randRole room sid name).1 sid 5).players sid).getD
        (insertBase randRole room sid name).2).suspicion
      = (if ((alGet (drawCards randReward (insertBase randRole room sid name).1 sid 5).players sid).getD
          (insertBase randRole room sid name).2).role == "saboteur" then (0.5 : ℚ) else 0) := by
    rw [hq]
    show q.suspicion = (if q.role == "saboteur" then (0.5 : ℚ) else 0)
    rw [hqsusp, hqrole]
    exact insertBase_suspVal randRole room sid name
  have g5 : alGet ((drawCards randReward (insertBase randRole room sid name).1 sid 5)
        |>.metrics.suspicionByPlayer) sid
      = some (((alGet (drawCards randReward (insertBase randRole room sid name).1 sid 5).players sid).getD
          (insertBase randRole room sid name).2).suspicion) := by
    rw [hq]
    show _ = some q.suspicion
    rw [hqsusp]
    exact hsusp2
  unfold insertPlayer
  dsimp only
  split
  · exact ⟨g1, g2, g3, g4, g5⟩
  · exact ⟨g1, g2, g3, g4, g5⟩

theorem resetPlayerStep_srInv (roles : List String) (randReward : Nat → Nat)
    (acc : Room) (ip : Nat × (String × Player)) (h : SuspRoleInv acc) :
    SuspRoleInv (resetPlayerStep roles randReward acc ip) := by
  unfold resetPlayerStep
  cases hp : alGet acc.players ip.2.1 with
  | none => exact h
  | some player =>
    dsimp only
    intro k v hkv
    rw [(drawCards_frame _ _ _ _).1] at hkv
    by_cases hk : k = ip.2.1
    · subst hk
      rw [alGet_alSet_self] at hkv
      injection hkv with hv
      obtain ⟨q, hq, hqid, hqrole, hqsusp⟩ :=
        drawCards_entry randReward
          ({ acc with
            players := alSet acc.players ip.2.1
              { player with
                role := roles.getD ip.1 "miner"
                hand := ([] : List CardInstance)
                connected := true
                toolBroken := false
                suspicion := if roles.getD ip.1 "miner" == "saboteur" then (0.5 : ℚ) else 0
                score := player.score }
            metrics := { acc.metrics with
              suspicionByPlayer := alSet acc.metrics.suspicionByPlayer ip.2.1
                (if roles.getD ip.1 "miner" == "saboteur" then (0.5 : ℚ) else 0) } })
          ip.2.1 ip.2.1 5 _ (alGet_alSet_self _ _ _)
      dsimp only at hqid hqrole hqsusp
      refine ⟨q, hq, ?_, ?_⟩
      · rw [hqsusp]
        exact hv
      · rw [hqrole]
        exact hv.symm
    · rw [alGet_alSet_ne _ _ _ _ hk] at hkv
      obtain ⟨p0, hp0, hs0, hv0⟩ := h k v hkv
      obtain ⟨q, hq, hqid, hqrole, hqsusp⟩ :=
        drawCards_entry randReward
          ({ acc with
            players := alSet acc.players ip.2.1
              { player with
                role := roles.getD ip.1 "miner"
                hand := ([] : List CardInstance)
                connected := true
                toolBroken := false
                suspicion := if roles.getD ip.1 "miner" == "saboteur" then (0.5 : ℚ) else 0
                score := player.score }
            metrics := { acc.metrics with
              suspicionByPlayer := alSet acc.metrics.suspicionByPlayer ip.2.1
                (if roles.getD ip.1 "miner" == "saboteur" then (0.5 : ℚ) else 0) } })
          ip.2.1 k 5 p0
          (by
            dsimp only
            rw [alGet_alSet_ne _ _ _ _ hk]
            exact hp0)
      refine ⟨q, hq, ?_, ?_⟩
      · rw [hqsusp]
        exact hs0
      · rw [hqrole]
        exact hv0

theorem resetFold_srInv (roles : List String) (randReward : Nat → Nat)
    (l : List (Nat × (String × Player))) (acc : Room) (h : SuspRoleInv acc) :
    SuspRoleInv (l.foldl (resetPlayerStep roles randReward) acc) := by
  induction l generalizing acc with
  | nil => exact h
  | cons x xs ih =>
    rw [List.foldl_cons]
    exact ih _ (resetPlayerStep_srInv roles randReward acc x h)

theorem syncBoardTelemetry_srInv (r : Room) (h : SuspRoleInv r) :
    SuspRoleInv (syncBoardTelemetry r) := by
  intro k v hkv
  rw [(syncBoardTelemetry_frame r).2.2.2.1] at hkv
  obtain ⟨p, hp, h1, h2⟩ := h k v hkv
  refine ⟨p, ?_, h1, h2⟩
  rw [(syncBoardTelemetry_frame r).1]
  exact hp

theorem resetRoom_srInv (goldPick : Nat) (freshId : Nat → String)
    (randDeck randRole randReward : Nat → Nat) (now : Int) (room : Room) :
    SuspRoleInv (resetRoom goldPick freshId randDeck randRole randReward now room) := by
  unfold resetRoom
  dsimp only
  refine syncBoardTelemetry_srInv _ ?_
  have hbase : ∀ rm : Room, rm.metrics.suspicionByPlayer = [] → SuspRoleInv rm := by
    intro rm hrm k v hkv
    rw [hrm] at hkv
    exact absurd hkv (by simp [alGet])
  split
  · exact resetFold_srInv _ _ _ _ (hbase _ rfl)
  · exact resetFold_srInv _ _ _ _ (hbase _ rfl)

/-- C10: on join (`insertPlayer`) the new player's suspicion starts at 0.5
iff their hidden role is saboteur and 0 iff miner, and the same holds for
every player after a restart (`resetRoom`); `serializePlayers` shows other
players' roles as `"unknown"` yet includes the exact suspicion value, so
the round-start serialized view of a player determines their hidden role. -/
theorem C10_round_start_suspicion_reveals_role
    (randRole randReward randDeck : Nat → Nat) (now : Int) (room : Room)
    (sid name req : String) (goldPick : Nat) (freshId : Nat → String)
    (hreq : req ≠ sid) :
    ((insertPlayer randRole randReward now room sid name).2.suspicion
        = (if (insertPlayer randRole randReward now room sid name).2.role == "saboteur"
           then (0.5 : ℚ) else 0)) ∧
    ((insertPlayer randRole randReward now room sid name).2.role = "saboteur" ∨
     (insertPlayer randRole randReward now room sid name).2.role = "miner") ∧
    (∃ s ∈ serializePlayers (insertPlayer randRole randReward now room sid name).1 (some req),
       s.id = sid ∧ s.role = "unknown" ∧
       (s.suspicion = 0.5 ↔
         (insertPlayer randRole randReward now room sid name).2.role = "saboteur") ∧
       (s.suspicion = 0 ↔
         (insertPlayer randRole randReward now room sid name).2.role = "miner")) ∧
    SuspRoleInv (resetRoom goldPick freshId randDeck randRole randReward now room) := by
  obtain ⟨hget, hid, hrole, hsusp, hmap⟩ := insertPlayer_result randRole randReward now room sid name
  refine ⟨hsusp, hrole, ?_,
    resetRoom_srInv goldPick freshId randDeck randRole randReward now room⟩
  obtain ⟨pair, hpair, hpk, hpv⟩ := alGet_mem _ _ _ hget
  have hD : alGetD (insertPlayer randRole randReward now room sid name).1.metrics.suspicionByPlayer
      sid 0 = (insertPlayer randRole randReward now room sid name).2.suspicion := by
    unfold alGetD
    rw [hmap]
    rfl
  have hne : ¬ ((some sid == some req) = true) := by
    simp only [beq_iff_eq, Option.some.injEq]
    exact fun hc => hreq hc.symm
  refine ⟨_, serializePlayers_mem (insertPlayer randRole randReward now room sid name).1
    (some req) pair hpair, ?_, ?_, ?_, ?_⟩
  · show pair.2.id = sid
    rw [hpv, hid]
  · show (if some pair.2.id == some req then pair.2.role else "unknown") = "unknown"
    rw [hpv, hid, if_neg hne]
  · show alGetD (insertPlayer randRole randReward now room sid name).1.metrics.suspicionByPlayer
        pair.2.id 0 = 0.5 ↔ _
    rw [hpv, hid, hD, hsusp]
    constructor
    · intro h05
      rcases hrole with hr | hr
      · exact hr
      · rw [hr] at h05
        rw [show (("miner" : String) == "saboteur") = false from by decide] at h05
        simp only [Bool.false_eq_true, if_false] at h05
        norm_num at h05
    · intro hr
      rw [hr]
      rw [show (("saboteur" : String) == "saboteur") = true from by decide]
      simp
  · show alGetD (insertPlayer randRole randReward now room sid name).1.metrics.suspicionByPlayer
        pair.2.id 0 = 0 ↔ _
    rw [hpv, hid, hD, hsusp]
    constructor
    · intro h0
      rcases hrole with hr | hr
      · rw [hr] at h0
        rw [show (("saboteur" : String) == "saboteur") = true from by decide] at h0
        simp only [if_true] at h0
        norm_num at h0
      · exact hr
    · intro hr
      rw [hr]
      rw [show (("miner" : String) == "saboteur") = false from by decide]
      simp

/-- Witness for C10 at a concrete join into the empty room, viewed by a
different session id. -/
theorem C10_witness :
    ("zz" : String) ≠ "p1" ∧
    ((insertPlayer (fun _ => 0) (fun _ => 0) 0 wEmptyRoom "p1" "").2.suspicion
      = (if (insertPlayer (fun _ => 0) (fun _ => 0) 0 wEmptyRoom "p1" "").2.role == "saboteur"
         then (0.5 : ℚ) else 0)) :=
  ⟨by decide, (C10_round_start_suspicion_reveals_role (fun _ => 0) (fun _ => 0) (fun _ => 0) 0
      wEmptyRoom "p1" "" "zz" 0 (fun _ => "") (by decide)).1⟩

/-- Witness for C4 at a concrete reachable gold goal. -/
theorem C4_witness :
    (wGoldGoal ∈ wGoalRoom.board.tiles ∧ wGoldGoal.tileType = "goal" ∧
      (exploreBoard wGoalRoom.board).visited.contains wGoldGoal.id = true) ∧
    ({ wGoldGoal with revealed := true } ∈ (syncBoardTelemetry wGoalRoom).board.tiles) ∧
    (syncBoardTelemetry wGoalRoom).board.winningTeam = some "miner" := by
  refine ⟨⟨by decide, rfl, by decide⟩, ?_, ?_⟩
  · exact (C4_goal_reveal_and_miner_win wGoalRoom wGoldGoal (by decide) rfl (by decide)).1
  · exact (C4_goal_reveal_and_miner_win wGoalRoom wGoldGoal (by decide) rfl (by decide)).2 rfl

/-- Witness for C9 at a concrete successful placement. -/
theorem C9_witness :
    (placeCard (fun _ => 0) 0 wPlaceRoom "p1" wPlacePayload).2.isOk = true ∧
    alGet (placeCard (fun _ => 0) 0 wPlaceRoom "p1" wPlacePayload).1.metrics.efficiencyByPlayer "p1"
      = some 0 := by
  refine ⟨by decide, ?_⟩
  have h := (C9_efficiency_never_moves (fun _ => 0) 0 wPlaceRoom "p1" wPlacePayload (by decide)).1
  rw [h]
  rfl

/-- Witness for C5: drawing the last card with no winner declared flips
`winningTeam` to `"saboteur"` inside the draw. -/
theorem C5_witness :
    isTruthy wOneCardRoom.board.winningTeam = false ∧
    (drawCards (fun _ => 0) wOneCardRoom "p1" 1).deck = [] ∧
    (drawCards (fun _ => 0) wOneCardRoom "p1" 1).board.winningTeam = some "saboteur" :=
  ⟨by decide, by decide,
   C5_deck_exhaustion_saboteur_win (fun _ => 0) wOneCardRoom "p1" 1 (by decide) (by decide)⟩

/-- C6: once the round-ended flag is set by the first resolution, any later
`maybeFinishRound` call leaves the whole room — player scores, gold
tallies and the round-ended flag included — unchanged. -/
theorem C6_maybeFinishRound_idempotent (rand : Nat → Nat) (room : Room)
    (placerId : Option String) (h : room.roundEnded = true) :
    maybeFinishRound rand room placerId = room := by
  unfold maybeFinishRound
  rw [if_pos h]

/-- Witness for C6 at a concrete ended room. -/
theorem C6_witness :
    ({ wEmptyRoom with roundEnded := true } : Room).roundEnded = true ∧
    maybeFinishRound (fun _ => 0) { wEmptyRoom with roundEnded := true } (some "p1")
      = { wEmptyRoom with roundEnded := true } :=
  ⟨rfl, C6_maybeFinishRound_idempotent (fun _ => 0) _ (some "p1") rfl⟩

theorem placeCard_error_frame (rand : Nat → Nat) (now : Int) (room : Room)
    (pid : String) (pp : PlacePayload) (msg : String)
    (h : (placeCard rand now room pid pp).2 = .error msg) :
    (placeCard rand now room pid pp).1 = room := by
  generalize hE : placeCard rand now room pid pp = P at h ⊢
  obtain ⟨r, res⟩ := P
  unfold placeCard at hE
  dsimp only at hE
  repeat' split at hE
  all_goals (injection hE with h1 h2)
  all_goals subst h1
  all_goals subst h2
  all_goals (first | rfl | simp at h)

theorem triggerRockfall_error_frame (rand : Nat → Nat) (now : Int) (room : Room)
    (pid : String) (tid : String) (msg : String)
    (h : (triggerRockfall rand now room pid tid).2 = .error msg) :
    (triggerRockfall rand now room pid tid).1 = room := by
  generalize hE : triggerRockfall rand now room pid tid = P at h ⊢
  obtain ⟨r, res⟩ := P
  unfold triggerRockfall at hE
  dsimp only at hE
  repeat' split at hE
  all_goals (injection hE with h1 h2)
  all_goals subst h1
  all_goals subst h2
  all_goals (first | rfl | simp at h)

theorem applyToolEffect_error_frame (rand : Nat → Nat) (now : Int) (room : Room)
    (pid : String) (tp : ToolPayload) (msg : String)
    (h : (applyToolEffect rand now room pid tp).2 = .error msg) :
    (applyToolEffect rand now room pid tp).1 = room := by
  generalize hE : applyToolEffect rand now room pid tp = P at h ⊢
  obtain ⟨r, res⟩ := P
  unfold applyToolEffect at hE
  dsimp only at hE
  repeat' split at hE
  all_goals (injection hE with h1 h2)
  all_goals subst h1
  all_goals subst h2
  all_goals (first | rfl | simp at h)

/-- C2: whenever `placeCard`, `triggerRockfall` or `applyToolEffect`
returns an error, the room state — board, deck, discard, hands, turn,
metrics, everything — is exactly what it was before the call. -/
theorem C2_validation_failure_frame (rand : Nat → Nat) (now : Int) (room : Room)
    (pid : String) (pp : PlacePayload) (tid : String) (tp : ToolPayload) :
    (∀ msg, (placeCard rand now room pid pp).2 = .error msg →
      (placeCard rand now room pid pp).1 = room) ∧
    (∀ msg, (triggerRockfall rand now room pid tid).2 = .error msg →
      (triggerRockfall rand now room pid tid).1 = room) ∧
    (∀ msg, (applyToolEffect rand now room pid tp).2 = .error msg →
      (applyToolEffect rand now room pid tp).1 = room) :=
  ⟨fun msg h => placeCard_error_frame rand now room pid pp msg h,
   fun msg h => triggerRockfall_error_frame rand now room pid tid msg h,
   fun msg h => applyToolEffect_error_frame rand now room pid tp msg h⟩

/-- Witness for C2: on a room with no players every action errors and the
room is returned untouched. -/
theorem C2_witness :
    (placeCard (fun _ => 0) 0 wEmptyRoom "p1" ⟨"c1", "0-1", 0⟩).2 = .error "Unknown player" ∧
    (placeCard (fun _ => 0) 0 wEmptyRoom "p1" ⟨"c1", "0-1", 0⟩).1 = wEmptyRoom ∧
    (triggerRockfall (fun _ => 0) 0 wEmptyRoom "p1" "0-1").1 = wEmptyRoom ∧
    (applyToolEffect (fun _ => 0) 0 wEmptyRoom "p1" ⟨"p2", "break"⟩).1 = wEmptyRoom := by
  refine ⟨by decide, ?_, ?_, ?_⟩
  · exact (C2_validation_failure_frame (fun _ => 0) 0 wEmptyRoom "p1" ⟨"c1", "0-1", 0⟩
      "0-1" ⟨"p2", "break"⟩).1 "Unknown player" (by decide)
  · exact (C2_validation_failure_frame (fun _ => 0) 0 wEmptyRoom "p1" ⟨"c1", "0-1", 0⟩
      "0-1" ⟨"p2", "break"⟩).2.1 "Unknown player" (by decide)
  · exact (C2_validation_failure_frame (fun _ => 0) 0 wEmptyRoom "p1" ⟨"c1", "0-1", 0⟩
      "0-1" ⟨"p2", "break"⟩).2.2 "Players missing" (by decide)

/-- C1 counterexample: in `wPlaceRoom` the placed card's east connector
faces off the board (and its north/south face nothing), so under the
claim's mismatch rule the placement must be rejected — yet `placeCard`
accepts it. -/
theorem C1_counterexample_open_connector_to_edge :
    (placeCard (fun _ => 0) 0 wPlaceRoom "p1" wPlacePayload).2.isOk = true ∧
    (neighborDirs.any
        (claimMismatchAt wPlaceRoom.board wEmpty (placedConnectors wPathCard wPlacePayload)))
      = true := by
  decide

/-- Witness for C1 at the concrete successful placement of `wPlaceRoom`. -/
theorem C1_witness :
    (placeCard (fun _ => 0) 0 wPlaceRoom "p1" wPlacePayload).2.isOk = true := by
  refine ((C1_placement_connection_rule (fun _ => 0) 0 wPlaceRoom "p1" wPlacePayload
      wPlacer wPathCard wEmpty (by decide) (by decide) (by decide) (by decide) (by decide)
      (by decide) (by decide) (by decide)).1).mpr ⟨?_, ?_⟩
  · exact ⟨Dir.west, by decide, wStart, ⟨false, true, false, false⟩,
      by decide, by decide, by decide, by decide⟩
  · intro d hd hmis
    obtain ⟨nb, nc, hnb, hnc, hne⟩ := hmis
    cases d with
    | north =>
      have hx : findNeighbor wPlaceRoom.board wEmpty Dir.north = none := rfl
      rw [hx] at hnb
      exact Option.noConfusion hnb
    | south =>
      have hx : findNeighbor wPlaceRoom.board wEmpty Dir.south = none := rfl
      rw [hx] at hnb
      exact Option.noConfusion hnb
    | east =>
      have hx : findNeighbor wPlaceRoom.board wEmpty Dir.east = none := rfl
      rw [hx] at hnb
      exact Option.noConfusion hnb
    | west =>
      have hx : findNeighbor wPlaceRoom.board wEmpty Dir.west = some wStart := rfl
      rw [hx] at hnb
      injection hnb with hnb
      rw [← hnb] at hnc
      have hy : wStart.connectors = some ⟨false, true, false, false⟩ := rfl
      rw [hy] at hnc
      injection hnc with hnc
      rw [← hnc] at hne
      exact hne (by decide)

end Saboteur
